import Mathlib

/-! Collie document manager: service layer.

A shallow embedding of the application services of the Collie document manager
(`pkg/services`), over the domain types of `pkg/domain` and the ports of `pkg/ports`.

Conventions of the embedding:

* A Go `error` is a value of `GoError`; a nil error is `none`.
* A Go `*T` result is an `Option T`; nil is `none`.
* The ports are interfaces.  A port is a record of functions over an explicit store
  state `σ`: every call takes the state before and gives back the state after.  The
  `context.Context` argument is only passed through by the services and is left out.
* `Save` and `Update` receive the entity through a pointer and report an error only, as
  the port contract has it; the entity is an input of the call.  The one write through
  such a pointer in the adapters, the identifier that `employeeRepository.Save` fills
  in when it is empty, happens only for an identifier the service has left empty.
* `uuid.New().String()` and `time.Now()` read the environment; the value read is an
  explicit argument of the operation that reads it.
* A method that assigns through a pointer to a fetched record (`existingDoc.Status = ...`)
  is a function from the record before to the record after.
* Functions of the Go standard library and of the AWS SDK that the code calls are
  modelled after their sources where a claim depends on what they compute (`time.Format`,
  `parseRFC3339`), and are arguments of the operation that calls them otherwise (the
  presign client, the general layout parser behind `time.Parse`).
-/

namespace Collie

/-! ## Go errors -/

/-- Go error values as the services build them: `errorString` is an error with a message
and nothing wrapped (what `fmt.Errorf` gives without a `%w` verb), `wrapError` is the
error `fmt.Errorf` gives for a format with `%w`. -/
inductive GoError where
  | errorString (msg : String)
  | wrapError (msg : String) (err : GoError)
  deriving DecidableEq, Repr

/-- The method `Error()` of an error. -/
def GoError.Error : GoError → String
  | .errorString msg => msg
  | .wrapError msg _ => msg

/-- The method `Unwrap()` found by `errors.Unwrap`. -/
def GoError.Unwrap : GoError → Option GoError
  | .errorString _ => none
  | .wrapError _ err => some err

/-- The call `fmt.Errorf(ctx + "%w", err)`: the message is the context followed by the
message of `err`, and `err` is kept as the wrapped error. -/
def fmt.Errorf_w (ctx : String) (err : GoError) : GoError :=
  .wrapError (ctx ++ err.Error) err

/-- The call `fmt.Errorf(before + "%s" + after, id)`, a format without `%w`. -/
def fmt.Errorf_s (before : String) (id : String) (after : String) : GoError :=
  .errorString (before ++ id ++ after)

/-! ## Time -/

/-- A `time.Time` value: the instant, as the seconds since January 1, year 1, 00:00:00
UTC and the nanoseconds within that second, and the location, as the offset from UTC, in
seconds east, that the location has at that instant (0 for UTC, which is also the
location of the zero value). The offset is all that the code here reads of a location.
The monotonic clock reading of a `time.Time` is left out: nothing here reads it. -/
structure Time where
  sec : Int
  nsec : Nat
  offset : Int := 0
  deriving DecidableEq, Repr

/-- The method `IsZero` of `time.Time`: the zero instant, January 1, year 1, 00:00:00 UTC. -/
def Time.IsZero (t : Time) : Bool :=
  t.sec == 0 && t.nsec == 0

/-! ## Domain (`pkg/domain`) -/

/-- The struct `domain.Document`. -/
structure Document where
  ID : String
  FileName : String
  S3Key : String
  UploadDate : Time
  Status : String
  OwnerID : String
  RequiresSignature : Bool
  DocumentType : String
  GroupName : String
  Recipient : String
  deriving DecidableEq, Repr

/-- The struct `domain.Employee`. -/
structure Employee where
  ID : String
  Name : String
  Email : String
  Status : String
  LinkDate : Time
  RoleID : String
  deriving DecidableEq, Repr

/-- Modelled from the spec: the declaration of `domain.Role` is not among the sources.
The spec gives a role an identifier, a name and a description; the field names are the
ones `role_service.go` and `role_repository.go` use. -/
structure Role where
  ID : String
  Name : String
  Description : String
  deriving DecidableEq, Repr

/-! ## Ports (`pkg/ports/ports.go`) -/

/-- The interface `ports.DocumentRepository`. -/
structure DocumentRepository (σ : Type) where
  Save : σ → Document → Option GoError × σ
  FindByID : σ → String → (Option Document × Option GoError) × σ
  FindAll : σ → (List Document × Option GoError) × σ
  Update : σ → Document → Option GoError × σ
  Delete : σ → String → Option GoError × σ

/-- The interface `ports.EmployeeRepository`. -/
structure EmployeeRepository (σ : Type) where
  Save : σ → Employee → Option GoError × σ
  FindByID : σ → String → (Option Employee × Option GoError) × σ
  FindAll : σ → (List Employee × Option GoError) × σ
  Update : σ → Employee → Option GoError × σ
  Delete : σ → String → Option GoError × σ

/-- The interface `ports.RoleRepository`. -/
structure RoleRepository (σ : Type) where
  Save : σ → Role → Option GoError × σ
  FindByID : σ → String → (Option Role × Option GoError) × σ
  FindAll : σ → (List Role × Option GoError) × σ
  Update : σ → Role → Option GoError × σ
  Delete : σ → String → Option GoError × σ

/-- The interface `ports.FileStorage`: the URL, the key and the error. -/
structure FileStorage (σ : Type) where
  GeneratePresignedUploadURL : σ → String → (String × String × Option GoError) × σ

/-! ## Services (`pkg/services`) -/

/-- The struct `documentService`. -/
structure documentService (σ : Type) where
  fileStorage : FileStorage σ
  repo : DocumentRepository σ

/-- The struct `employeeService`. -/
structure employeeService (σ : Type) where
  repo : EmployeeRepository σ

/-- The struct `roleService`. -/
structure roleService (σ : Type) where
  repo : RoleRepository σ

/-- Lines 29-37 of `CreateDocument`: the three defaults applied to the local copy `doc`
before it is saved. `uuidNew` is the value of `uuid.New().String()` and `timeNow` the
value of `time.Now()`. -/
def documentService.CreateDocument.populate (uuidNew : String) (timeNow : Time)
    (doc : Document) : Document :=
  let doc := if doc.ID = "" then { doc with ID := uuidNew } else doc
  let doc := if doc.UploadDate.IsZero then { doc with UploadDate := timeNow } else doc
  let doc := if doc.Status = "" then { doc with Status := "PENDING_UPLOAD" } else doc
  doc

/-- The method `documentService.CreateDocument`. -/
def documentService.CreateDocument {σ : Type} (s : documentService σ) (uuidNew : String)
    (timeNow : Time) (w : σ) (doc : Document) : (Option Document × Option GoError) × σ :=
  let doc := documentService.CreateDocument.populate uuidNew timeNow doc
  match s.repo.Save w doc with
  | (some err, w') => ((none, some (fmt.Errorf_w "failed to save document: " err)), w')
  | (none, w') => ((some doc, none), w')

/-- Lines 27-35 of `CreateEmployee`: the three defaults applied to the local copy
`employee` before it is saved. -/
def employeeService.CreateEmployee.populate (uuidNew : String) (timeNow : Time)
    (employee : Employee) : Employee :=
  let employee := if employee.ID = "" then { employee with ID := uuidNew } else employee
  let employee :=
    if employee.LinkDate.IsZero then { employee with LinkDate := timeNow } else employee
  let employee :=
    if employee.Status = "" then { employee with Status := "Activo" } else employee
  employee

/-- The method `employeeService.CreateEmployee`. -/
def employeeService.CreateEmployee {σ : Type} (s : employeeService σ) (uuidNew : String)
    (timeNow : Time) (w : σ) (employee : Employee) :
    (Option Employee × Option GoError) × σ :=
  let employee := employeeService.CreateEmployee.populate uuidNew timeNow employee
  match s.repo.Save w employee with
  | (some err, w') => ((none, some (fmt.Errorf_w "failed to save employee: " err)), w')
  | (none, w') => ((some employee, none), w')

/-- Lines 26-28 of `CreateRole`: the identifier default applied to the local copy `role`
before it is saved. -/
def roleService.CreateRole.populate (uuidNew : String) (role : Role) : Role :=
  if role.ID = "" then { role with ID := uuidNew } else role

/-- The method `roleService.CreateRole`. -/
def roleService.CreateRole {σ : Type} (s : roleService σ) (uuidNew : String) (w : σ)
    (role : Role) : (Option Role × Option GoError) × σ :=
  let role := roleService.CreateRole.populate uuidNew role
  match s.repo.Save w role with
  | (some err, w') => ((none, some (fmt.Errorf_w "failed to save role: " err)), w')
  | (none, w') => ((some role, none), w')

/-- The method `documentService.GetDocumentByID`. -/
def documentService.GetDocumentByID {σ : Type} (s : documentService σ) (w : σ)
    (id : String) : (Option Document × Option GoError) × σ :=
  match s.repo.FindByID w id with
  | ((_, some err), w') =>
    ((none, some (fmt.Errorf_w "failed to find document by ID: " err)), w')
  | ((none, none), w') => ((none, none), w')
  | ((some doc, none), w') => ((some doc, none), w')

/-- The method `employeeService.GetEmployeeByID`. -/
def employeeService.GetEmployeeByID {σ : Type} (s : employeeService σ) (w : σ)
    (id : String) : (Option Employee × Option GoError) × σ :=
  match s.repo.FindByID w id with
  | ((_, some err), w') =>
    ((none, some (fmt.Errorf_w "failed to find employee by ID: " err)), w')
  | ((none, none), w') => ((none, none), w')
  | ((some employee, none), w') => ((some employee, none), w')

/-- The method `roleService.GetRoleByID`. -/
def roleService.GetRoleByID {σ : Type} (s : roleService σ) (w : σ)
    (id : String) : (Option Role × Option GoError) × σ :=
  match s.repo.FindByID w id with
  | ((_, some err), w') =>
    ((none, some (fmt.Errorf_w "failed to find role by ID: " err)), w')
  | ((none, none), w') => ((none, none), w')
  | ((some role, none), w') => ((some role, none), w')

/-- Lines 77-97 of `UpdateDocument`: the assignments made through the pointer
`existingDoc` from the proposed values `doc`, in the order of the source. -/
def documentService.UpdateDocument.merge (existingDoc doc : Document) : Document :=
  let existingDoc :=
    if doc.FileName ≠ "" then { existingDoc with FileName := doc.FileName } else existingDoc
  let existingDoc :=
    if doc.S3Key ≠ "" then { existingDoc with S3Key := doc.S3Key } else existingDoc
  let existingDoc :=
    if doc.Status ≠ "" then { existingDoc with Status := doc.Status } else existingDoc
  let existingDoc :=
    if doc.OwnerID ≠ "" then { existingDoc with OwnerID := doc.OwnerID } else existingDoc
  let existingDoc := { existingDoc with RequiresSignature := doc.RequiresSignature }
  let existingDoc :=
    if doc.DocumentType ≠ "" then { existingDoc with DocumentType := doc.DocumentType }
    else existingDoc
  let existingDoc :=
    if doc.GroupName ≠ "" then { existingDoc with GroupName := doc.GroupName }
    else existingDoc
  existingDoc

/-- The method `documentService.UpdateDocument`. -/
def documentService.UpdateDocument {σ : Type} (s : documentService σ) (w : σ)
    (id : String) (doc : Document) : (Option Document × Option GoError) × σ :=
  match s.repo.FindByID w id with
  | ((_, some err), w1) =>
    ((none, some (fmt.Errorf_w "failed to find existing document for update: " err)), w1)
  | ((none, none), w1) =>
    ((none, some (fmt.Errorf_s "document with ID " id " not found")), w1)
  | ((some existingDoc, none), w1) =>
    let existingDoc := documentService.UpdateDocument.merge existingDoc doc
    match s.repo.Update w1 existingDoc with
    | (some err, w2) => ((none, some (fmt.Errorf_w "failed to update document: " err)), w2)
    | (none, w2) => ((some existingDoc, none), w2)

/-- Lines 76-87 of `UpdateEmployee`: the assignments made through the pointer
`existingEmployee` from the proposed values `employee`, in the order of the source. -/
def employeeService.UpdateEmployee.merge (existingEmployee employee : Employee) : Employee :=
  let existingEmployee :=
    if employee.Name ≠ "" then { existingEmployee with Name := employee.Name }
    else existingEmployee
  let existingEmployee :=
    if employee.Email ≠ "" then { existingEmployee with Email := employee.Email }
    else existingEmployee
  let existingEmployee :=
    if employee.Status ≠ "" then { existingEmployee with Status := employee.Status }
    else existingEmployee
  let existingEmployee := { existingEmployee with RoleID := employee.RoleID }
  existingEmployee

/-- The method `employeeService.UpdateEmployee`. -/
def employeeService.UpdateEmployee {σ : Type} (s : employeeService σ) (w : σ)
    (id : String) (employee : Employee) : (Option Employee × Option GoError) × σ :=
  match s.repo.FindByID w id with
  | ((_, some err), w1) =>
    ((none, some (fmt.Errorf_w "failed to find existing employee for update: " err)), w1)
  | ((none, none), w1) =>
    ((none, some (fmt.Errorf_s "employee with ID " id " not found")), w1)
  | ((some existingEmployee, none), w1) =>
    let existingEmployee := employeeService.UpdateEmployee.merge existingEmployee employee
    match s.repo.Update w1 existingEmployee with
    | (some err, w2) => ((none, some (fmt.Errorf_w "failed to update employee: " err)), w2)
    | (none, w2) => ((some existingEmployee, none), w2)

/-- Lines 69-75 of `UpdateRole`: the assignments made through the pointer `existingRole`
from the proposed values `role`, in the order of the source. -/
def roleService.UpdateRole.merge (existingRole role : Role) : Role :=
  let existingRole :=
    if role.Name ≠ "" then { existingRole with Name := role.Name } else existingRole
  let existingRole :=
    if role.Description ≠ "" then { existingRole with Description := role.Description }
    else existingRole
  existingRole

/-- The method `roleService.UpdateRole`. -/
def roleService.UpdateRole {σ : Type} (s : roleService σ) (w : σ)
    (id : String) (role : Role) : (Option Role × Option GoError) × σ :=
  match s.repo.FindByID w id with
  | ((_, some err), w1) =>
    ((none, some (fmt.Errorf_w "failed to find existing role for update: " err)), w1)
  | ((none, none), w1) =>
    ((none, some (fmt.Errorf_s "role with ID " id " not found")), w1)
  | ((some existingRole, none), w1) =>
    let existingRole := roleService.UpdateRole.merge existingRole role
    match s.repo.Update w1 existingRole with
    | (some err, w2) => ((none, some (fmt.Errorf_w "failed to update role: " err)), w2)
    | (none, w2) => ((some existingRole, none), w2)

/-! ## In-memory instances of the ports

Concrete repositories over a list of records, one record per identifier.  They satisfy
the port contract (absence is a nil result with a nil error) and serve to run the
services on concrete inputs. -/

/-- An in-memory document repository: the store is the list of saved documents. -/
def memDocumentRepository : DocumentRepository (List Document) where
  Save w doc := (none, doc :: w.filter (fun d => d.ID ≠ doc.ID))
  FindByID w id := ((w.find? (fun d => d.ID = id), none), w)
  FindAll w := ((w, none), w)
  Update w doc := (none, w.map (fun d => if d.ID = doc.ID then doc else d))
  Delete w id := (none, w.filter (fun d => d.ID ≠ id))

/-- An in-memory employee repository: the store is the list of saved employees. -/
def memEmployeeRepository : EmployeeRepository (List Employee) where
  Save w e := (none, e :: w.filter (fun d => d.ID ≠ e.ID))
  FindByID w id := ((w.find? (fun d => d.ID = id), none), w)
  FindAll w := ((w, none), w)
  Update w e := (none, w.map (fun d => if d.ID = e.ID then e else d))
  Delete w id := (none, w.filter (fun d => d.ID ≠ id))

/-- An in-memory role repository: the store is the list of saved roles. -/
def memRoleRepository : RoleRepository (List Role) where
  Save w r := (none, r :: w.filter (fun d => d.ID ≠ r.ID))
  FindByID w id := ((w.find? (fun d => d.ID = id), none), w)
  FindAll w := ((w, none), w)
  Update w r := (none, w.map (fun d => if d.ID = r.ID then r else d))
  Delete w id := (none, w.filter (fun d => d.ID ≠ id))

/-- A file storage that is out of service: every request fails. -/
def downFileStorage (σ : Type) : FileStorage σ where
  GeneratePresignedUploadURL w _ := (("", "", some (.errorString "storage unavailable")), w)

/-- The document service over the in-memory repository. -/
def memDocumentService : documentService (List Document) where
  fileStorage := downFileStorage (List Document)
  repo := memDocumentRepository

/-- The employee service over the in-memory repository. -/
def memEmployeeService : employeeService (List Employee) where
  repo := memEmployeeRepository

/-- The role service over the in-memory repository. -/
def memRoleService : roleService (List Role) where
  repo := memRoleRepository

/-- The zero value of `time.Time`. -/
def Time.zero : Time := { sec := 0, nsec := 0 }

/-- An instant used as the clock reading in examples: 2024-01-01T00:00:00.5Z. -/
def Time.sample : Time := { sec := 63839664000, nsec := 500000000 }

/-- The zero value of `domain.Document`. -/
def Document.zero : Document :=
  { ID := "", FileName := "", S3Key := "", UploadDate := Time.zero, Status := "",
    OwnerID := "", RequiresSignature := false, DocumentType := "", GroupName := "",
    Recipient := "" }

/-- The zero value of `domain.Employee`. -/
def Employee.zero : Employee :=
  { ID := "", Name := "", Email := "", Status := "", LinkDate := Time.zero, RoleID := "" }

/-- The zero value of `domain.Role`. -/
def Role.zero : Role := { ID := "", Name := "", Description := "" }

/-- A stored employee used in examples: Ana, assigned the role `r1`. -/
def Employee.ana : Employee :=
  { ID := "e-7", Name := "Ana", Email := "ana@collie.test", Status := "Activo",
    LinkDate := Time.sample, RoleID := "r1" }

/-- A stored document used in examples: a contract awaiting upload that requires a
signature. -/
def Document.contract : Document :=
  { ID := "d-1", FileName := "a.pdf", S3Key := "uploads/a.pdf_1704067200_",
    UploadDate := Time.sample, Status := "PENDING_UPLOAD", OwnerID := "e-7",
    RequiresSignature := true, DocumentType := "contract", GroupName := "hr",
    Recipient := "legal" }

/-- A stored role used in examples. -/
def Role.admin : Role := { ID := "r1", Name := "admin", Description := "all rights" }

/-! ## Upload coordination (`document_service.go`, `adapters/filestorage/s3`) -/

/-- The method `documentService.RequestUploadURL`: the three results of the file storage
port, as the port gives them. -/
def documentService.RequestUploadURL {σ : Type} (s : documentService σ) (w : σ)
    (fileName : String) : (String × String × Option GoError) × σ :=
  s.fileStorage.GeneratePresignedUploadURL w fileName

/-- The method `Unix` of `time.Time`: seconds since January 1, 1970, 00:00:00 UTC. -/
def Time.Unix (t : Time) : Int :=
  t.sec - 62135596800

/-- The function `os.Getenv` over a process environment given as a lookup: the value of
the variable, and the empty string when the variable is not set. -/
def os.Getenv (environ : String → Option String) (key : String) : String :=
  (environ key).getD ""

/-- The verb `%d` of `fmt.Sprintf` on an integer: the decimal digits, after a minus sign
when the integer is negative. -/
def fmt.decimal : Int → String
  | .ofNat n => Nat.repr n
  | .negSucc n => "-" ++ Nat.repr (n + 1)

/-- The presign client of the AWS SDK as the adapter uses it: `PresignPutObject` for a
bucket, a key and a validity in seconds gives the URL of the presigned request, or an
error. -/
structure PresignClient where
  PresignPutObject : String → String → Nat → Except GoError String

/-- The struct `s3FileStorage` (the S3 client itself is not used after construction). -/
structure s3FileStorage where
  presigner : PresignClient
  bucketName : String

/-- The call `fmt.Sprintf("uploads/%s_%d_%s", fileName, unix, requestID)` of line 69 of
`s3_file_storage.go`. -/
def s3FileStorage.GeneratePresignedUploadURL.key (fileName : String) (unix : Int)
    (requestID : String) : String :=
  "uploads/" ++ fileName ++ "_" ++ fmt.decimal unix ++ "_" ++ requestID

/-- The method `s3FileStorage.GeneratePresignedUploadURL`, for the clock reading
`timeNow` and the process environment `environ`; the validity asked for is five
minutes. -/
def s3FileStorage.GeneratePresignedUploadURL (s : s3FileStorage) (timeNow : Time)
    (environ : String → Option String) (fileName : String) :
    String × String × Option GoError :=
  let key := s3FileStorage.GeneratePresignedUploadURL.key fileName timeNow.Unix
    (os.Getenv environ "AWS_REQUEST_ID")
  match s.presigner.PresignPutObject s.bucketName key (5 * 60) with
  | .error err => ("", "", some (fmt.Errorf_w "failed to presign put object: " err))
  | .ok url => (url, key, none)

/-- The S3 file storage as an implementation of `ports.FileStorage` over a state from
which the clock and the process environment are read; a call leaves the state as it
is. -/
def s3FileStorage.port {σ : Type} (s : s3FileStorage) (clock : σ → Time)
    (environ : σ → String → Option String) : FileStorage σ where
  GeneratePresignedUploadURL w fileName :=
    (s.GeneratePresignedUploadURL (clock w) (environ w) fileName, w)

/-- What the S3 adapter reads from its surroundings at a call. -/
structure Surroundings where
  timeNow : Time
  environ : String → Option String

/-- A presign client that signs every request. -/
def signingPresignClient : PresignClient where
  PresignPutObject bucket key _ := .ok ("https://" ++ bucket ++ ".s3.test/" ++ key ++ "?sig")

/-- A presign client without credentials: every request fails. -/
def failingPresignClient : PresignClient where
  PresignPutObject _ _ _ := .error (.errorString "no credentials")

/-- A document repository that holds nothing and accepts every write. -/
def emptyDocumentRepository (σ : Type) : DocumentRepository σ where
  Save w _ := (none, w)
  FindByID w _ := ((none, none), w)
  FindAll w := (([], none), w)
  Update w _ := (none, w)
  Delete w _ := (none, w)

/-- The document service over the S3 file storage with the given presign client and the
bucket `collie-docs`. -/
def s3DocumentService (presigner : PresignClient) : documentService Surroundings where
  fileStorage :=
    s3FileStorage.port { presigner := presigner, bucketName := "collie-docs" }
      Surroundings.timeNow Surroundings.environ
  repo := emptyDocumentRepository Surroundings

/-- Surroundings used in examples: the clock at `Time.sample` and no `AWS_REQUEST_ID`. -/
def Surroundings.sample : Surroundings :=
  { timeNow := Time.sample, environ := fun _ => none }

/-! ## Recording repositories

A repository wrapped so that the state also holds the list of the calls received, in
order, each with its argument. -/

/-- A call received by a repository of entities `E`. -/
inductive RepositoryCall (E : Type) where
  | Save (entity : E)
  | FindByID (id : String)
  | FindAll
  | Update (entity : E)
  | Delete (id : String)
  deriving DecidableEq, Repr

/-- The document repository `r`, recording the calls it receives. -/
def DocumentRepository.recording {σ : Type} (r : DocumentRepository σ) :
    DocumentRepository (σ × List (RepositoryCall Document)) where
  Save w doc := ((r.Save w.1 doc).1, ((r.Save w.1 doc).2, w.2 ++ [.Save doc]))
  FindByID w id := ((r.FindByID w.1 id).1, ((r.FindByID w.1 id).2, w.2 ++ [.FindByID id]))
  FindAll w := ((r.FindAll w.1).1, ((r.FindAll w.1).2, w.2 ++ [.FindAll]))
  Update w doc := ((r.Update w.1 doc).1, ((r.Update w.1 doc).2, w.2 ++ [.Update doc]))
  Delete w id := ((r.Delete w.1 id).1, ((r.Delete w.1 id).2, w.2 ++ [.Delete id]))

/-- The employee repository `r`, recording the calls it receives. -/
def EmployeeRepository.recording {σ : Type} (r : EmployeeRepository σ) :
    EmployeeRepository (σ × List (RepositoryCall Employee)) where
  Save w e := ((r.Save w.1 e).1, ((r.Save w.1 e).2, w.2 ++ [.Save e]))
  FindByID w id := ((r.FindByID w.1 id).1, ((r.FindByID w.1 id).2, w.2 ++ [.FindByID id]))
  FindAll w := ((r.FindAll w.1).1, ((r.FindAll w.1).2, w.2 ++ [.FindAll]))
  Update w e := ((r.Update w.1 e).1, ((r.Update w.1 e).2, w.2 ++ [.Update e]))
  Delete w id := ((r.Delete w.1 id).1, ((r.Delete w.1 id).2, w.2 ++ [.Delete id]))

/-- The role repository `r`, recording the calls it receives. -/
def RoleRepository.recording {σ : Type} (r : RoleRepository σ) :
    RoleRepository (σ × List (RepositoryCall Role)) where
  Save w e := ((r.Save w.1 e).1, ((r.Save w.1 e).2, w.2 ++ [.Save e]))
  FindByID w id := ((r.FindByID w.1 id).1, ((r.FindByID w.1 id).2, w.2 ++ [.FindByID id]))
  FindAll w := ((r.FindAll w.1).1, ((r.FindAll w.1).2, w.2 ++ [.FindAll]))
  Update w e := ((r.Update w.1 e).1, ((r.Update w.1 e).2, w.2 ++ [.Update e]))
  Delete w id := ((r.Delete w.1 id).1, ((r.Delete w.1 id).2, w.2 ++ [.Delete id]))

/-- A document repository whose store is out of reach: every call fails. -/
def brokenDocumentRepository (σ : Type) : DocumentRepository σ where
  Save w _ := (some (.errorString "failed to put item in DynamoDB: timeout"), w)
  FindByID w _ := ((none, some (.errorString "failed to get item from DynamoDB: timeout")), w)
  FindAll w := (([], some (.errorString "failed to scan DynamoDB table: timeout")), w)
  Update w _ := (some (.errorString "failed to update item in DynamoDB: timeout"), w)
  Delete w _ := (some (.errorString "failed to delete item from DynamoDB: timeout"), w)

/-- An employee repository whose store is out of reach: every call fails. -/
def brokenEmployeeRepository (σ : Type) : EmployeeRepository σ where
  Save w _ := (some (.errorString "failed to put item in DynamoDB: timeout"), w)
  FindByID w _ := ((none, some (.errorString "failed to get item from DynamoDB: timeout")), w)
  FindAll w := (([], some (.errorString "failed to scan DynamoDB table: timeout")), w)
  Update w _ := (some (.errorString "failed to update item in DynamoDB: timeout"), w)
  Delete w _ := (some (.errorString "failed to delete item from DynamoDB: timeout"), w)

/-- A role repository whose store is out of reach: every call fails. -/
def brokenRoleRepository (σ : Type) : RoleRepository σ where
  Save w _ := (some (.errorString "failed to put item in DynamoDB: timeout"), w)
  FindByID w _ := ((none, some (.errorString "failed to get item from DynamoDB: timeout")), w)
  FindAll w := (([], some (.errorString "failed to scan DynamoDB table: timeout")), w)
  Update w _ := (some (.errorString "failed to update item in DynamoDB: timeout"), w)
  Delete w _ := (some (.errorString "failed to delete item from DynamoDB: timeout"), w)

/-- The number read from a list of digit characters, most significant first, after the
digits already read as `acc`. -/
def readDecimal (acc : Nat) (cs : List Char) : Nat :=
  cs.foldl (fun a c => a * 10 + (c.toNat - 48)) acc

/-! ## RFC 3339 text of a time (Go package `time`)

The DynamoDB adapter stores a date as `t.Format(time.RFC3339)` and reads it back with
`time.Parse(time.RFC3339, ...)`.  Both are functions of the Go standard library; they
are modelled here after the Go sources (Go 1.20 to 1.22): `abs`, `absDate`, `absClock`,
`daysSinceEpoch`, `Date`, `appendInt`, the RFC 3339 case of `Format`, `parseRFC3339` and
`Parse`.  The calendar is the proleptic Gregorian calendar. -/

/-- The function `isLeap` of package `time`. -/
def time.isLeap (year : Int) : Bool :=
  year % 4 == 0 && (year % 100 != 0 || year % 400 == 0)

/-- The table `daysBefore` of package `time`: `daysBefore m` counts the days of a
non-leap year before the first day of month `m + 1`. -/
def time.daysBefore (m : Int) : Int :=
  if m ≤ 0 then 0
  else if m = 1 then 31
  else if m = 2 then 31 + 28
  else if m = 3 then 31 + 28 + 31
  else if m = 4 then 31 + 28 + 31 + 30
  else if m = 5 then 31 + 28 + 31 + 30 + 31
  else if m = 6 then 31 + 28 + 31 + 30 + 31 + 30
  else if m = 7 then 31 + 28 + 31 + 30 + 31 + 30 + 31
  else if m = 8 then 31 + 28 + 31 + 30 + 31 + 30 + 31 + 31
  else if m = 9 then 31 + 28 + 31 + 30 + 31 + 30 + 31 + 31 + 30
  else if m = 10 then 31 + 28 + 31 + 30 + 31 + 30 + 31 + 31 + 30 + 31
  else if m = 11 then 31 + 28 + 31 + 30 + 31 + 30 + 31 + 31 + 30 + 31 + 30
  else 31 + 28 + 31 + 30 + 31 + 30 + 31 + 31 + 30 + 31 + 30 + 31

/-- The function `daysIn` of package `time`. -/
def time.daysIn (month year : Int) : Int :=
  if month = 2 ∧ time.isLeap year = true then 29
  else time.daysBefore month - time.daysBefore (month - 1)

/-- The first half of `absDate` of package `time`: from the days since January 1 of
year 1, the year and the day within the year, by cutting off cycles of 400, 100, 4 and 1
years. -/
def time.absYear (days : Int) : Int × Int :=
  let n := days / 146097
  let y := 400 * n
  let d := days - 146097 * n
  let n := d / 36524
  let n := n - n / 4
  let y := y + 100 * n
  let d := d - 36524 * n
  let n := d / 1461
  let y := y + 4 * n
  let d := d - 1461 * n
  let n := d / 365
  let n := n - n / 4
  let y := y + n
  let d := d - 365 * n
  (y + 1, d)

/-- The second half of `absDate` of package `time`: from the year and the day within the
year, the month and the day of the month. -/
def time.absMonthDay (year yday : Int) : Int × Int :=
  let day := yday
  if time.isLeap year = true ∧ day = 31 + 29 - 1 then (2, 29)
  else
    let day := if time.isLeap year = true ∧ day > 31 + 29 - 1 then day - 1 else day
    let month := day / 31
    let stop := time.daysBefore (month + 1)
    if day ≥ stop then (month + 2, day - stop + 1)
    else (month + 1, day - time.daysBefore month + 1)

/-- The function `absDate` of package `time`: the year, the month and the day of the
month of `abs`, the seconds since the absolute epoch. Go counts the days from the
absolute epoch, January 1 of year -292277022399, which lies 730692556 cycles of 400
years, 106751990353932 days, before January 1 of year 1; the cycles are cut off here
from the days since January 1 of year 1, with quotients rounded down, which finds the
same year and the same day within the year. -/
def time.absDate (abs : Int) : Int × Int × Int :=
  let days := abs / 86400 - 106751990353932
  ((time.absYear days).1, time.absMonthDay (time.absYear days).1 (time.absYear days).2)

/-- The function `daysSinceEpoch` of package `time`, counted from January 1 of year 1. -/
def time.daysSinceEpoch (year : Int) : Int :=
  let y := year - 1
  let n := y / 400
  let y := y - 400 * n
  let d := 146097 * n
  let n := y / 100
  let y := y - 100 * n
  let d := d + 36524 * n
  let n := y / 4
  let y := y - 4 * n
  let d := d + 1461 * n
  d + 365 * y

/-- The function `time.Date` for the location UTC, on a year from 0 to 9999 and a month,
day, hour, minute and second within their ranges (the only arguments `parseRFC3339`
passes); no sum leaves the range of `int64` there. -/
def time.Date (year month day hour min sec : Int) (nsec : Nat) : Time :=
  let d := time.daysSinceEpoch year
  let d := d + time.daysBefore (month - 1)
  let d := if time.isLeap year = true ∧ month ≥ 3 then d + 1 else d
  let d := d + (day - 1)
  { sec := d * 86400 + (hour * 3600 + min * 60 + sec), nsec := nsec, offset := 0 }

/-- The function `appendInt` of package `time`: the decimal text of `x`, after a minus
sign when `x` is negative, padded with zeros to at least `width` digits. -/
def time.appendInt (x : Int) (width : Nat) : List Char :=
  let sign := if x < 0 then ['-'] else []
  let u := x.natAbs
  if width = 2 ∧ u < 100 then sign ++ [Nat.digitChar (u / 10), Nat.digitChar (u % 10)]
  else if width = 4 ∧ u < 10000 then
    sign ++ [Nat.digitChar (u / 100 / 10), Nat.digitChar (u / 100 % 10),
             Nat.digitChar (u % 100 / 10), Nat.digitChar (u % 100 % 10)]
  else sign ++ (List.replicate (width - (Nat.toDigits 10 u).length) '0' ++ Nat.toDigits 10 u)

/-- The layout constant `time.RFC3339`. -/
def time.RFC3339 : String := "2006-01-02T15:04:05Z07:00"

/-- The method `abs` of `time.Time`: the seconds on the wall clock of the location of
`t` since the absolute epoch, as the `uint64` that Go computes from the `int64` seconds
of the instant, the offset of the location and the distance of the two epochs. -/
def Time.abs (t : Time) : Int :=
  (t.sec + t.offset + 9223371966579724800) % 18446744073709551616

/-- The date and the time of day that `Format` writes for the layout `time.RFC3339`:
year, month and day from `absDate`, hour, minute and second from `absClock`. -/
def Time.appendDateTime (t : Time) : List Char :=
  let date := time.absDate t.abs
  let secs := t.abs % 86400
  time.appendInt date.1 4 ++ '-' :: (time.appendInt date.2.1 2 ++ '-' ::
    (time.appendInt date.2.2 2 ++ 'T' :: (time.appendInt (secs / 3600) 2 ++ ':' ::
    (time.appendInt (secs % 3600 / 60) 2 ++ ':' :: time.appendInt (secs % 60) 2))))

/-- The zone that `Format` writes for the layout `time.RFC3339`: `Z` for the offset 0,
and otherwise the sign and the hours and minutes of the offset, whose seconds are cut
off (Go divides the offset by 60 rounding toward zero). -/
def Time.appendZone (t : Time) : List Char :=
  if t.offset = 0 then ['Z']
  else
    let zone := Int.tdiv t.offset 60
    if zone < 0 then
      '-' :: (time.appendInt (-zone / 60) 2 ++ ':' :: time.appendInt (-zone % 60) 2)
    else '+' :: (time.appendInt (zone / 60) 2 ++ ':' :: time.appendInt (zone % 60) 2)

/-- The call `t.Format(time.RFC3339)`: the date and the time of day on the wall clock of
the location of `t`, and the zone. The layout has no fraction of a second: the
nanoseconds of `t` are not written. -/
def Time.Format_RFC3339 (t : Time) : String :=
  String.mk (t.appendDateTime ++ t.appendZone)

/-- The helper `parseUint` inside `parseRFC3339`: the digits `s` as a number within
`min` and `max`. -/
def time.parseUint (s : List Char) (min max : Int) : Option Int :=
  if s.all Char.isDigit = true then
    let x : Int := (readDecimal 0 s : Nat)
    if x < min ∨ max < x then none else some x
  else none

/-- The function `parseNanoseconds` of package `time` on the digits after the point: the
first nine digits count, scaled to nanoseconds. -/
def time.parseNanoseconds (digits : List Char) : Nat :=
  readDecimal 0 (digits.take 9) * 10 ^ (9 - (digits.take 9).length)

/-- The function `parseRFC3339` of package `time` on the characters of the text: the
date and time fields at their fixed places, an optional fraction of a second, and the
zone `Z` or an offset `+hh:mm` or `-hh:mm`. The time read has the location UTC for the
zone `Z`, and otherwise a location whose offset is the offset read. -/
def time.parseRFC3339 (s : List Char) : Option Time :=
  if s.length < 19 then none
  else do
    let year ← time.parseUint (s.take 4) 0 9999
    let month ← time.parseUint ((s.drop 5).take 2) 1 12
    let day ← time.parseUint ((s.drop 8).take 2) 1 (time.daysIn month year)
    let hour ← time.parseUint ((s.drop 11).take 2) 0 23
    let minute ← time.parseUint ((s.drop 14).take 2) 0 59
    let second ← time.parseUint ((s.drop 17).take 2) 0 59
    if ¬ (s[4]? = some '-' ∧ s[7]? = some '-' ∧ s[10]? = some 'T' ∧ s[13]? = some ':'
        ∧ s[16]? = some ':') then none
    else
      let s := s.drop 19
      let frac := match s with
        | '.' :: c :: rest => if c.isDigit = true then (c :: rest).takeWhile Char.isDigit else []
        | _ => []
      let nsec := if frac = [] then 0 else time.parseNanoseconds frac
      let s := if frac = [] then s else s.drop (1 + frac.length)
      let t := time.Date year month day hour minute second nsec
      match s with
      | ['Z'] => some t
      | [sign, h1, h2, colon, m1, m2] => do
        let hr ← time.parseUint [h1, h2] 0 23
        let mm ← time.parseUint [m1, m2] 0 59
        if ¬ ((sign = '-' ∨ sign = '+') ∧ colon = ':') then none
        else
          let zoneOffset := (hr * 60 + mm) * 60
          let zoneOffset := if sign = '-' then -zoneOffset else zoneOffset
          some { sec := t.sec - zoneOffset, nsec := t.nsec, offset := zoneOffset }
      | _ => none

/-- The function `time.Parse` for the layout `time.RFC3339` (Go 1.20 and later): the
time that `parseRFC3339` reads when it accepts the text, and otherwise whatever the
general layout parser of package `time` gives for the text; that parser is the argument
`parse`. -/
def time.Parse_RFC3339 (parse : String → Except GoError Time) (value : String) :
    Except GoError Time :=
  match time.parseRFC3339 value.data with
  | some t => .ok t
  | none => parse value

/-- The date and the time of day as `Format` writes them for the year `Y`, the month
`M`, the day `D` and the time `h:m:s`. -/
def dateTimeText (Y M D h m s : Nat) : List Char :=
  time.appendInt Y 4 ++ '-' :: (time.appendInt M 2 ++ '-' ::
    (time.appendInt D 2 ++ 'T' :: (time.appendInt h 2 ++ ':' ::
    (time.appendInt m 2 ++ ':' :: time.appendInt s 2))))

/-- A general layout parser that accepts no text, to run `time.Parse` on examples. -/
def rejectingLayoutParser : String → Except GoError Time :=
  fun _ => .error (.errorString "parsing time: cannot parse")

/-! ## DynamoDB document record (`adapters/storage/dynamodb/document_repository.go`) -/

/-- The struct `DocumentItem`. -/
structure DocumentItem where
  ID : String
  FileName : String
  S3Key : String
  UploadDate : String
  Status : String
  OwnerID : String
  RequiresSignature : Bool
  DocumentType : String
  GroupName : String
  deriving DecidableEq, Repr

/-- The function `toDocumentItem`. -/
def toDocumentItem (doc : Document) : Option DocumentItem × Option GoError :=
  (some { ID := doc.ID,
          FileName := doc.FileName,
          S3Key := doc.S3Key,
          UploadDate := doc.UploadDate.Format_RFC3339,
          Status := doc.Status,
          OwnerID := doc.OwnerID,
          RequiresSignature := doc.RequiresSignature,
          DocumentType := doc.DocumentType,
          GroupName := doc.GroupName }, none)

/-- The function `toDomainDocument`; the field `Recipient`, which the composite literal
does not set, has its zero value. The argument `parse` is the general layout parser of
package `time`, which `time.Parse` falls back on. -/
def toDomainDocument (parse : String → Except GoError Time) (item : DocumentItem) :
    Option Document × Option GoError :=
  match time.Parse_RFC3339 parse item.UploadDate with
  | .error err => (none, some (fmt.Errorf_w "failed to parse UploadDate: " err))
  | .ok uploadDate =>
    (some { ID := item.ID,
            FileName := item.FileName,
            S3Key := item.S3Key,
            UploadDate := uploadDate,
            Status := item.Status,
            OwnerID := item.OwnerID,
            RequiresSignature := item.RequiresSignature,
            DocumentType := item.DocumentType,
            GroupName := item.GroupName,
            Recipient := "" }, none)

/-! ## Shared lemmas: what each operation returns -/

/-- When `Save` reports no error, `CreateDocument` returns the populated document and
the store left by `Save`. -/
theorem CreateDocument_of_Save_ok {σ : Type} (s : documentService σ) (uuidNew : String)
    (timeNow : Time) (w : σ) (doc : Document)
    (h : (s.repo.Save w (documentService.CreateDocument.populate uuidNew timeNow doc)).1
      = none) :
    s.CreateDocument uuidNew timeNow w doc
      = ((some (documentService.CreateDocument.populate uuidNew timeNow doc), none),
         (s.repo.Save w (documentService.CreateDocument.populate uuidNew timeNow doc)).2) := by
  unfold documentService.CreateDocument
  simp only
  rcases hs : s.repo.Save w (documentService.CreateDocument.populate uuidNew timeNow doc)
    with ⟨_ | err, w'⟩
  · rfl
  · rw [hs] at h; cases h

/-- When `Save` reports no error, `CreateEmployee` returns the populated employee and
the store left by `Save`. -/
theorem CreateEmployee_of_Save_ok {σ : Type} (s : employeeService σ) (uuidNew : String)
    (timeNow : Time) (w : σ) (employee : Employee)
    (h : (s.repo.Save w (employeeService.CreateEmployee.populate uuidNew timeNow employee)).1
      = none) :
    s.CreateEmployee uuidNew timeNow w employee
      = ((some (employeeService.CreateEmployee.populate uuidNew timeNow employee), none),
         (s.repo.Save w
            (employeeService.CreateEmployee.populate uuidNew timeNow employee)).2) := by
  unfold employeeService.CreateEmployee
  simp only
  rcases hs : s.repo.Save w (employeeService.CreateEmployee.populate uuidNew timeNow employee)
    with ⟨_ | err, w'⟩
  · rfl
  · rw [hs] at h; cases h

/-- When `Save` reports no error, `CreateRole` returns the populated role and the store
left by `Save`. -/
theorem CreateRole_of_Save_ok {σ : Type} (s : roleService σ) (uuidNew : String)
    (w : σ) (role : Role)
    (h : (s.repo.Save w (roleService.CreateRole.populate uuidNew role)).1 = none) :
    s.CreateRole uuidNew w role
      = ((some (roleService.CreateRole.populate uuidNew role), none),
         (s.repo.Save w (roleService.CreateRole.populate uuidNew role)).2) := by
  unfold roleService.CreateRole
  simp only
  rcases hs : s.repo.Save w (roleService.CreateRole.populate uuidNew role) with ⟨_ | err, w'⟩
  · rfl
  · rw [hs] at h; cases h

/-- The identifier of a populated document. -/
theorem CreateDocument_populate_ID (uuidNew : String) (timeNow : Time) (doc : Document) :
    (documentService.CreateDocument.populate uuidNew timeNow doc).ID
      = if doc.ID = "" then uuidNew else doc.ID := by
  unfold documentService.CreateDocument.populate
  simp only
  split_ifs <;> rfl

/-- The identifier of a populated employee. -/
theorem CreateEmployee_populate_ID (uuidNew : String) (timeNow : Time)
    (employee : Employee) :
    (employeeService.CreateEmployee.populate uuidNew timeNow employee).ID
      = if employee.ID = "" then uuidNew else employee.ID := by
  unfold employeeService.CreateEmployee.populate
  simp only
  split_ifs <;> rfl

/-- The identifier of a populated role. -/
theorem CreateRole_populate_ID (uuidNew : String) (role : Role) :
    (roleService.CreateRole.populate uuidNew role).ID
      = if role.ID = "" then uuidNew else role.ID := by
  unfold roleService.CreateRole.populate
  split_ifs <;> rfl

/-! ## Creation -/

/-- C1: for each of `CreateDocument`, `CreateEmployee` and `CreateRole`, when the
repository `Save` succeeds an entity is returned with no error; if the input ID is the
empty string the returned ID is the generated identifier (so it is non-empty whenever
the generated identifier is), and if the input ID is non-empty the returned ID is the
input ID. -/
theorem create_id_generated_or_preserved {σd σe σr : Type}
    (ds : documentService σd) (es : employeeService σe) (rs : roleService σr)
    (uuidNew : String) (timeNow : Time) (wd : σd) (we : σe) (wr : σr)
    (doc : Document) (employee : Employee) (role : Role) :
    ((ds.repo.Save wd (documentService.CreateDocument.populate uuidNew timeNow doc)).1 = none →
      ∃ out, (ds.CreateDocument uuidNew timeNow wd doc).1 = (some out, none) ∧
        (doc.ID = "" → out.ID = uuidNew ∧ (uuidNew ≠ "" → out.ID ≠ "")) ∧
        (doc.ID ≠ "" → out.ID = doc.ID)) ∧
    ((es.repo.Save we (employeeService.CreateEmployee.populate uuidNew timeNow employee)).1
        = none →
      ∃ out, (es.CreateEmployee uuidNew timeNow we employee).1 = (some out, none) ∧
        (employee.ID = "" → out.ID = uuidNew ∧ (uuidNew ≠ "" → out.ID ≠ "")) ∧
        (employee.ID ≠ "" → out.ID = employee.ID)) ∧
    ((rs.repo.Save wr (roleService.CreateRole.populate uuidNew role)).1 = none →
      ∃ out, (rs.CreateRole uuidNew wr role).1 = (some out, none) ∧
        (role.ID = "" → out.ID = uuidNew ∧ (uuidNew ≠ "" → out.ID ≠ "")) ∧
        (role.ID ≠ "" → out.ID = role.ID)) := by
  refine ⟨fun h => ?_, fun h => ?_, fun h => ?_⟩
  · refine ⟨_, by rw [CreateDocument_of_Save_ok ds uuidNew timeNow wd doc h], ?_, ?_⟩
    · intro hid
      have : (documentService.CreateDocument.populate uuidNew timeNow doc).ID = uuidNew := by
        rw [CreateDocument_populate_ID, if_pos hid]
      exact ⟨this, fun hne => by rw [this]; exact hne⟩
    · intro hid
      rw [CreateDocument_populate_ID, if_neg hid]
  · refine ⟨_, by rw [CreateEmployee_of_Save_ok es uuidNew timeNow we employee h], ?_, ?_⟩
    · intro hid
      have : (employeeService.CreateEmployee.populate uuidNew timeNow employee).ID
          = uuidNew := by
        rw [CreateEmployee_populate_ID, if_pos hid]
      exact ⟨this, fun hne => by rw [this]; exact hne⟩
    · intro hid
      rw [CreateEmployee_populate_ID, if_neg hid]
  · refine ⟨_, by rw [CreateRole_of_Save_ok rs uuidNew wr role h], ?_, ?_⟩
    · intro hid
      have : (roleService.CreateRole.populate uuidNew role).ID = uuidNew := by
        rw [CreateRole_populate_ID, if_pos hid]
      exact ⟨this, fun hne => by rw [this]; exact hne⟩
    · intro hid
      rw [CreateRole_populate_ID, if_neg hid]

/-- Witness of C1 on the in-memory repositories, with the generated identifier
`"3f2a-01"`: a document created with an empty ID gets the generated one, an employee
created with the ID `"e-7"` keeps it, and a role created with an empty ID gets the
generated one. -/
theorem create_id_generated_or_preserved_witness :
    (∃ out, (memDocumentService.CreateDocument "3f2a-01" Time.sample []
        { Document.zero with FileName := "a.pdf" }).1 = (some out, none) ∧
      out.ID = "3f2a-01" ∧ out.ID ≠ "") ∧
    (∃ out, (memEmployeeService.CreateEmployee "3f2a-01" Time.sample []
        { Employee.zero with ID := "e-7", Name := "Ana" }).1 = (some out, none) ∧
      out.ID = "e-7") ∧
    (∃ out, (memRoleService.CreateRole "3f2a-01" []
        { Role.zero with Name := "admin" }).1 = (some out, none) ∧
      out.ID = "3f2a-01" ∧ out.ID ≠ "") := by
  have h := create_id_generated_or_preserved memDocumentService memEmployeeService
    memRoleService "3f2a-01" Time.sample [] [] []
    { Document.zero with FileName := "a.pdf" }
    { Employee.zero with ID := "e-7", Name := "Ana" }
    { Role.zero with Name := "admin" }
  obtain ⟨outd, hd, hd1, -⟩ := h.1 rfl
  obtain ⟨oute, he, -, he2⟩ := h.2.1 rfl
  obtain ⟨outr, hr, hr1, -⟩ := h.2.2 rfl
  exact ⟨⟨outd, hd, (hd1 rfl).1, (hd1 rfl).2 (by decide)⟩,
    ⟨oute, he, he2 (by decide)⟩,
    ⟨outr, hr, (hr1 rfl).1, (hr1 rfl).2 (by decide)⟩⟩

/-- The populated employee, field by field. -/
theorem CreateEmployee_populate_eq (uuidNew : String) (timeNow : Time)
    (employee : Employee) :
    employeeService.CreateEmployee.populate uuidNew timeNow employee
      = { ID := if employee.ID = "" then uuidNew else employee.ID,
          Name := employee.Name,
          Email := employee.Email,
          Status := if employee.Status = "" then "Activo" else employee.Status,
          LinkDate := if employee.LinkDate.IsZero then timeNow else employee.LinkDate,
          RoleID := employee.RoleID } := by
  cases employee
  simp only [employeeService.CreateEmployee.populate]
  split_ifs <;> simp_all

/-- The populated document, field by field. -/
theorem CreateDocument_populate_eq (uuidNew : String) (timeNow : Time) (doc : Document) :
    documentService.CreateDocument.populate uuidNew timeNow doc
      = { ID := if doc.ID = "" then uuidNew else doc.ID,
          FileName := doc.FileName,
          S3Key := doc.S3Key,
          UploadDate := if doc.UploadDate.IsZero then timeNow else doc.UploadDate,
          Status := if doc.Status = "" then "PENDING_UPLOAD" else doc.Status,
          OwnerID := doc.OwnerID,
          RequiresSignature := doc.RequiresSignature,
          DocumentType := doc.DocumentType,
          GroupName := doc.GroupName,
          Recipient := doc.Recipient } := by
  cases doc
  simp only [documentService.CreateDocument.populate]
  split_ifs <;> simp_all

/-- C2, as stated, fails: `CreateEmployee` of the employee named Ana, with an empty
Status and a zero LinkDate, on a repository whose `Save` succeeds, returns the Status
`"Activo"`, which is not the string `"Active"`. -/
theorem CreateEmployee_Ana_default_status_not_Active :
    ({ Employee.zero with Name := "Ana" } : Employee).Status = "" ∧
    ({ Employee.zero with Name := "Ana" } : Employee).LinkDate.IsZero = true ∧
    (memEmployeeService.CreateEmployee "3f2a-01" Time.sample []
        { Employee.zero with Name := "Ana" }).1
      = (some { ID := "3f2a-01", Name := "Ana", Email := "", Status := "Activo",
                LinkDate := Time.sample, RoleID := "" }, none) ∧
    ¬ ∃ out, (memEmployeeService.CreateEmployee "3f2a-01" Time.sample []
        { Employee.zero with Name := "Ana" }).1 = (some out, none) ∧
      out.Status = "Active" := by
  refine ⟨rfl, rfl, rfl, ?_⟩
  rintro ⟨out, hout, hstatus⟩
  have h : (memEmployeeService.CreateEmployee "3f2a-01" Time.sample []
        { Employee.zero with Name := "Ana" }).1
      = (some { ID := "3f2a-01", Name := "Ana", Email := "", Status := "Activo",
                LinkDate := Time.sample, RoleID := "" }, none) := rfl
  rw [h] at hout
  injection hout with h1 _
  injection h1 with h1
  rw [← h1] at hstatus
  exact absurd hstatus (by decide)

/-- C2, amended: for every employee passed to `CreateEmployee` with an empty Status and
a zero LinkDate, the generated identifier being non-empty, when the repository `Save`
succeeds the returned employee has a non-empty ID, the Status `"Activo"`, the LinkDate
read from the clock during the call, and the Name, Email and RoleID of the input. -/
theorem CreateEmployee_defaults {σ : Type} (es : employeeService σ) (uuidNew : String)
    (timeNow : Time) (w : σ) (employee : Employee)
    (hstatus : employee.Status = "") (hdate : employee.LinkDate.IsZero = true)
    (huuid : uuidNew ≠ "")
    (hsave : (es.repo.Save w
      (employeeService.CreateEmployee.populate uuidNew timeNow employee)).1 = none) :
    ∃ out, (es.CreateEmployee uuidNew timeNow w employee).1 = (some out, none) ∧
      out.ID ≠ "" ∧ out.Status = "Activo" ∧ out.LinkDate = timeNow ∧
      out.Name = employee.Name ∧ out.Email = employee.Email ∧
      out.RoleID = employee.RoleID := by
  refine ⟨_, by rw [CreateEmployee_of_Save_ok es uuidNew timeNow w employee hsave], ?_⟩
  rw [CreateEmployee_populate_eq]
  refine ⟨?_, ?_, ?_, rfl, rfl, rfl⟩
  · show (if employee.ID = "" then uuidNew else employee.ID) ≠ ""
    split_ifs with hid
    · exact huuid
    · exact hid
  · show (if employee.Status = "" then "Activo" else employee.Status) = "Activo"
    rw [if_pos hstatus]
  · show (if employee.LinkDate.IsZero = true then timeNow else employee.LinkDate) = timeNow
    rw [if_pos hdate]

/-- Witness of the amended C2: the employee named Ana on the in-memory repository. -/
theorem CreateEmployee_defaults_witness :
    ∃ out, (memEmployeeService.CreateEmployee "3f2a-01" Time.sample []
        { Employee.zero with Name := "Ana" }).1 = (some out, none) ∧
      out.ID ≠ "" ∧ out.Status = "Activo" ∧ out.LinkDate = Time.sample ∧
      out.Name = "Ana" ∧ out.Email = "" ∧ out.RoleID = "" :=
  CreateEmployee_defaults memEmployeeService "3f2a-01" Time.sample []
    { Employee.zero with Name := "Ana" } rfl rfl (by decide) rfl

/-- C3: for every document passed to `CreateDocument`, when the repository `Save`
succeeds a document is returned with no error; its Status is `"PENDING_UPLOAD"` if the
input Status is empty and the input Status otherwise; its UploadDate is the clock
reading if the input UploadDate is the zero time and the input UploadDate otherwise;
FileName, S3Key, OwnerID, RequiresSignature, DocumentType, GroupName and Recipient are
the input's. -/
theorem CreateDocument_defaults {σ : Type} (ds : documentService σ) (uuidNew : String)
    (timeNow : Time) (w : σ) (doc : Document)
    (hsave : (ds.repo.Save w
      (documentService.CreateDocument.populate uuidNew timeNow doc)).1 = none) :
    ∃ out, (ds.CreateDocument uuidNew timeNow w doc).1 = (some out, none) ∧
      out.Status = (if doc.Status = "" then "PENDING_UPLOAD" else doc.Status) ∧
      out.UploadDate = (if doc.UploadDate.IsZero = true then timeNow else doc.UploadDate) ∧
      out.FileName = doc.FileName ∧ out.S3Key = doc.S3Key ∧ out.OwnerID = doc.OwnerID ∧
      out.RequiresSignature = doc.RequiresSignature ∧
      out.DocumentType = doc.DocumentType ∧ out.GroupName = doc.GroupName ∧
      out.Recipient = doc.Recipient := by
  refine ⟨_, by rw [CreateDocument_of_Save_ok ds uuidNew timeNow w doc hsave], ?_⟩
  rw [CreateDocument_populate_eq]
  exact ⟨rfl, rfl, rfl, rfl, rfl, rfl, rfl, rfl, rfl⟩

/-- Witness of C3: the document `a.pdf` with nothing else set gets the default status
and the clock reading; a document that carries a status and a date keeps both. -/
theorem CreateDocument_defaults_witness :
    (∃ out, (memDocumentService.CreateDocument "3f2a-01" Time.sample []
        { Document.zero with FileName := "a.pdf" }).1 = (some out, none) ∧
      out.Status = "PENDING_UPLOAD" ∧ out.UploadDate = Time.sample ∧
      out.FileName = "a.pdf") ∧
    (∃ out, (memDocumentService.CreateDocument "3f2a-01" Time.sample []
        { Document.zero with Status := "UPLOADED", UploadDate := ⟨63839664000, 0, 0⟩,
                             Recipient := "hr" }).1 = (some out, none) ∧
      out.Status = "UPLOADED" ∧ out.UploadDate = ⟨63839664000, 0, 0⟩ ∧
      out.Recipient = "hr") := by
  obtain ⟨o1, h1, hs1, hd1, hf1, -⟩ := CreateDocument_defaults memDocumentService "3f2a-01"
    Time.sample [] { Document.zero with FileName := "a.pdf" } rfl
  obtain ⟨o2, h2, hs2, hd2, -, -, -, -, -, -, hr2⟩ := CreateDocument_defaults
    memDocumentService "3f2a-01" Time.sample []
    { Document.zero with Status := "UPLOADED", UploadDate := ⟨63839664000, 0, 0⟩,
                         Recipient := "hr" } rfl
  exact ⟨⟨o1, h1, hs1, hd1, hf1⟩, ⟨o2, h2, hs2, hd2, hr2⟩⟩

/-! ## Partial updates -/

/-- When `FindByID` gives the record `existing` and `Update` reports no error,
`UpdateDocument` returns the merged document and the store left by `Update`. -/
theorem UpdateDocument_of_found {σ : Type} (s : documentService σ) (w w1 : σ) (id : String)
    (existing doc : Document)
    (hfind : s.repo.FindByID w id = ((some existing, none), w1))
    (hupd : (s.repo.Update w1 (documentService.UpdateDocument.merge existing doc)).1 = none) :
    s.UpdateDocument w id doc
      = ((some (documentService.UpdateDocument.merge existing doc), none),
         (s.repo.Update w1 (documentService.UpdateDocument.merge existing doc)).2) := by
  unfold documentService.UpdateDocument
  rw [hfind]
  simp only
  rcases hs : s.repo.Update w1 (documentService.UpdateDocument.merge existing doc)
    with ⟨_ | err, w2⟩
  · rfl
  · rw [hs] at hupd; cases hupd

/-- When `FindByID` gives the record `existing` and `Update` reports no error,
`UpdateEmployee` returns the merged employee and the store left by `Update`. -/
theorem UpdateEmployee_of_found {σ : Type} (s : employeeService σ) (w w1 : σ) (id : String)
    (existing employee : Employee)
    (hfind : s.repo.FindByID w id = ((some existing, none), w1))
    (hupd : (s.repo.Update w1
      (employeeService.UpdateEmployee.merge existing employee)).1 = none) :
    s.UpdateEmployee w id employee
      = ((some (employeeService.UpdateEmployee.merge existing employee), none),
         (s.repo.Update w1 (employeeService.UpdateEmployee.merge existing employee)).2) := by
  unfold employeeService.UpdateEmployee
  rw [hfind]
  simp only
  rcases hs : s.repo.Update w1 (employeeService.UpdateEmployee.merge existing employee)
    with ⟨_ | err, w2⟩
  · rfl
  · rw [hs] at hupd; cases hupd

/-- When `FindByID` gives the record `existing` and `Update` reports no error,
`UpdateRole` returns the merged role and the store left by `Update`. -/
theorem UpdateRole_of_found {σ : Type} (s : roleService σ) (w w1 : σ) (id : String)
    (existing role : Role)
    (hfind : s.repo.FindByID w id = ((some existing, none), w1))
    (hupd : (s.repo.Update w1 (roleService.UpdateRole.merge existing role)).1 = none) :
    s.UpdateRole w id role
      = ((some (roleService.UpdateRole.merge existing role), none),
         (s.repo.Update w1 (roleService.UpdateRole.merge existing role)).2) := by
  unfold roleService.UpdateRole
  rw [hfind]
  simp only
  rcases hs : s.repo.Update w1 (roleService.UpdateRole.merge existing role)
    with ⟨_ | err, w2⟩
  · rfl
  · rw [hs] at hupd; cases hupd

/-- The merged document, field by field. -/
theorem UpdateDocument_merge_eq (existing doc : Document) :
    documentService.UpdateDocument.merge existing doc
      = { ID := existing.ID,
          FileName := if doc.FileName ≠ "" then doc.FileName else existing.FileName,
          S3Key := if doc.S3Key ≠ "" then doc.S3Key else existing.S3Key,
          UploadDate := existing.UploadDate,
          Status := if doc.Status ≠ "" then doc.Status else existing.Status,
          OwnerID := if doc.OwnerID ≠ "" then doc.OwnerID else existing.OwnerID,
          RequiresSignature := doc.RequiresSignature,
          DocumentType :=
            if doc.DocumentType ≠ "" then doc.DocumentType else existing.DocumentType,
          GroupName := if doc.GroupName ≠ "" then doc.GroupName else existing.GroupName,
          Recipient := existing.Recipient } := by
  cases existing
  simp only [documentService.UpdateDocument.merge]
  split_ifs <;> rfl

/-- The merged employee, field by field. -/
theorem UpdateEmployee_merge_eq (existing employee : Employee) :
    employeeService.UpdateEmployee.merge existing employee
      = { ID := existing.ID,
          Name := if employee.Name ≠ "" then employee.Name else existing.Name,
          Email := if employee.Email ≠ "" then employee.Email else existing.Email,
          Status := if employee.Status ≠ "" then employee.Status else existing.Status,
          LinkDate := existing.LinkDate,
          RoleID := employee.RoleID } := by
  cases existing
  simp only [employeeService.UpdateEmployee.merge]
  split_ifs <;> rfl

/-- The merged role, field by field. -/
theorem UpdateRole_merge_eq (existing role : Role) :
    roleService.UpdateRole.merge existing role
      = { ID := existing.ID,
          Name := if role.Name ≠ "" then role.Name else existing.Name,
          Description :=
            if role.Description ≠ "" then role.Description else existing.Description } := by
  cases existing
  simp only [roleService.UpdateRole.merge]
  split_ifs <;> rfl

/-- C4, as stated, fails: Ana is stored with the role `r1`; `UpdateEmployee` with a
partial that carries only a new Name, its RoleID empty, returns and stores Ana with an
empty RoleID. -/
theorem UpdateEmployee_empty_RoleID_clears_stored :
    Employee.ana.RoleID = "r1" ∧
    ({ Employee.zero with Name := "Ana Maria" } : Employee).RoleID = "" ∧
    memEmployeeService.UpdateEmployee [Employee.ana] "e-7"
        { Employee.zero with Name := "Ana Maria" }
      = ((some { Employee.ana with Name := "Ana Maria", RoleID := "" }, none),
         [{ Employee.ana with Name := "Ana Maria", RoleID := "" }]) ∧
    ¬ ∃ out, (memEmployeeService.UpdateEmployee [Employee.ana] "e-7"
        { Employee.zero with Name := "Ana Maria" }).1 = (some out, none) ∧
      out.RoleID = Employee.ana.RoleID := by
  refine ⟨rfl, rfl, rfl, ?_⟩
  rintro ⟨out, hout, hrole⟩
  have h : (memEmployeeService.UpdateEmployee [Employee.ana] "e-7"
        { Employee.zero with Name := "Ana Maria" }).1
      = (some { Employee.ana with Name := "Ana Maria", RoleID := "" }, none) := rfl
  rw [h] at hout
  injection hout with h1 _
  injection h1 with h1
  rw [← h1] at hrole
  exact absurd hrole (by decide)

/-- C4, amended: for every existing employee record and every partial employee passed
to `UpdateEmployee`, the repository calls succeeding, the merged employee is handed to
the repository `Update` and returned; each of Name, Email and Status that is empty in
the partial leaves the existing value of that field unchanged; RoleID is always the
RoleID of the partial, so a partial with an empty RoleID clears a stored RoleID. -/
theorem UpdateEmployee_empty_fields_preserved {σ : Type} (s : employeeService σ)
    (w w1 : σ) (id : String) (existing employee : Employee)
    (hfind : s.repo.FindByID w id = ((some existing, none), w1))
    (hupd : (s.repo.Update w1
      (employeeService.UpdateEmployee.merge existing employee)).1 = none) :
    ∃ merged, s.UpdateEmployee w id employee
        = ((some merged, none), (s.repo.Update w1 merged).2) ∧
      (employee.Name = "" → merged.Name = existing.Name) ∧
      (employee.Email = "" → merged.Email = existing.Email) ∧
      (employee.Status = "" → merged.Status = existing.Status) ∧
      merged.RoleID = employee.RoleID := by
  refine ⟨_, UpdateEmployee_of_found s w w1 id existing employee hfind hupd, ?_⟩
  rw [UpdateEmployee_merge_eq]
  refine ⟨fun h => ?_, fun h => ?_, fun h => ?_, rfl⟩
  · show (if employee.Name ≠ "" then employee.Name else existing.Name) = existing.Name
    rw [if_neg (not_not.mpr h)]
  · show (if employee.Email ≠ "" then employee.Email else existing.Email) = existing.Email
    rw [if_neg (not_not.mpr h)]
  · show (if employee.Status ≠ "" then employee.Status else existing.Status)
      = existing.Status
    rw [if_neg (not_not.mpr h)]

/-- Witness of the amended C4: a partial that carries only the Status `"Baja"` and the
role `r2`, applied to the stored Ana. -/
theorem UpdateEmployee_empty_fields_preserved_witness :
    ∃ merged, memEmployeeService.UpdateEmployee [Employee.ana] "e-7"
        { Employee.zero with Status := "Baja", RoleID := "r2" }
        = ((some merged, none), [merged]) ∧
      merged.Name = "Ana" ∧ merged.Email = "ana@collie.test" ∧ merged.RoleID = "r2" := by
  obtain ⟨m, hm, hname, hemail, -, hrole⟩ := UpdateEmployee_empty_fields_preserved
    memEmployeeService [Employee.ana] [Employee.ana] "e-7" Employee.ana
    { Employee.zero with Status := "Baja", RoleID := "r2" } rfl rfl
  refine ⟨m, ?_, hname rfl, hemail rfl, hrole⟩
  rw [hm]
  have hid : m = { Employee.ana with Status := "Baja", RoleID := "r2" } := by
    have h2 : memEmployeeService.UpdateEmployee [Employee.ana] "e-7"
        { Employee.zero with Status := "Baja", RoleID := "r2" }
      = ((some { Employee.ana with Status := "Baja", RoleID := "r2" }, none),
         [{ Employee.ana with Status := "Baja", RoleID := "r2" }]) := rfl
    rw [h2] at hm
    injection hm with h3 _
    injection h3 with h3 _
    injection h3 with h3
    exact h3.symm
  subst hid
  rfl

/-- C5, as stated, fails: the contract is stored with the Recipient `"legal"`;
`UpdateDocument` with a partial whose Recipient is the non-empty `"payroll"` returns and
stores a document whose Recipient is still `"legal"`. -/
theorem UpdateDocument_Recipient_not_replaced :
    ({ Document.contract with Recipient := "payroll" } : Document).Recipient ≠ "" ∧
    (memDocumentService.UpdateDocument [Document.contract] "d-1"
        { Document.contract with Recipient := "payroll" })
      = ((some Document.contract, none), [Document.contract]) ∧
    ¬ ∃ out, (memDocumentService.UpdateDocument [Document.contract] "d-1"
        { Document.contract with Recipient := "payroll" }).1 = (some out, none) ∧
      out.Recipient = "payroll" := by
  refine ⟨by decide, rfl, ?_⟩
  rintro ⟨out, hout, hrec⟩
  have h : (memDocumentService.UpdateDocument [Document.contract] "d-1"
        { Document.contract with Recipient := "payroll" }).1
      = (some Document.contract, none) := rfl
  rw [h] at hout
  injection hout with h1 _
  injection h1 with h1
  rw [← h1] at hrec
  exact absurd hrec (by decide)

/-- C5, amended: for every existing document record and every partial document passed
to `UpdateDocument`, the repository calls succeeding, the merged document is handed to
the repository `Update` and returned; each of FileName, S3Key, Status, OwnerID,
DocumentType and GroupName that is non-empty in the partial replaces the existing value
of that field; Recipient is not merged, the result keeps the existing Recipient. -/
theorem UpdateDocument_nonempty_fields_replace {σ : Type} (s : documentService σ)
    (w w1 : σ) (id : String) (existing doc : Document)
    (hfind : s.repo.FindByID w id = ((some existing, none), w1))
    (hupd : (s.repo.Update w1 (documentService.UpdateDocument.merge existing doc)).1 = none) :
    ∃ merged, s.UpdateDocument w id doc
        = ((some merged, none), (s.repo.Update w1 merged).2) ∧
      (doc.FileName ≠ "" → merged.FileName = doc.FileName) ∧
      (doc.S3Key ≠ "" → merged.S3Key = doc.S3Key) ∧
      (doc.Status ≠ "" → merged.Status = doc.Status) ∧
      (doc.OwnerID ≠ "" → merged.OwnerID = doc.OwnerID) ∧
      (doc.DocumentType ≠ "" → merged.DocumentType = doc.DocumentType) ∧
      (doc.GroupName ≠ "" → merged.GroupName = doc.GroupName) ∧
      merged.Recipient = existing.Recipient := by
  refine ⟨_, UpdateDocument_of_found s w w1 id existing doc hfind hupd, ?_⟩
  rw [UpdateDocument_merge_eq]
  refine ⟨fun h => ?_, fun h => ?_, fun h => ?_, fun h => ?_, fun h => ?_, fun h => ?_, rfl⟩
  · show (if doc.FileName ≠ "" then doc.FileName else existing.FileName) = doc.FileName
    rw [if_pos h]
  · show (if doc.S3Key ≠ "" then doc.S3Key else existing.S3Key) = doc.S3Key
    rw [if_pos h]
  · show (if doc.Status ≠ "" then doc.Status else existing.Status) = doc.Status
    rw [if_pos h]
  · show (if doc.OwnerID ≠ "" then doc.OwnerID else existing.OwnerID) = doc.OwnerID
    rw [if_pos h]
  · show (if doc.DocumentType ≠ "" then doc.DocumentType else existing.DocumentType)
      = doc.DocumentType
    rw [if_pos h]
  · show (if doc.GroupName ≠ "" then doc.GroupName else existing.GroupName) = doc.GroupName
    rw [if_pos h]

/-- Witness of the amended C5: a partial that sets the six merged string fields and a
Recipient, applied to the stored contract. -/
theorem UpdateDocument_nonempty_fields_replace_witness :
    ∃ merged, (memDocumentService.UpdateDocument [Document.contract] "d-1"
        { Document.zero with FileName := "b.pdf", S3Key := "uploads/b.pdf_1704067201_",
                             Status := "UPLOADED", OwnerID := "e-8",
                             DocumentType := "payslip", GroupName := "finance",
                             Recipient := "payroll" }).1 = (some merged, none) ∧
      merged.FileName = "b.pdf" ∧ merged.S3Key = "uploads/b.pdf_1704067201_" ∧
      merged.Status = "UPLOADED" ∧ merged.OwnerID = "e-8" ∧
      merged.DocumentType = "payslip" ∧ merged.GroupName = "finance" ∧
      merged.Recipient = "legal" := by
  obtain ⟨m, hm, h1, h2, h3, h4, h5, h6, h7⟩ := UpdateDocument_nonempty_fields_replace
    memDocumentService [Document.contract] [Document.contract] "d-1" Document.contract
    { Document.zero with FileName := "b.pdf", S3Key := "uploads/b.pdf_1704067201_",
                         Status := "UPLOADED", OwnerID := "e-8",
                         DocumentType := "payslip", GroupName := "finance",
                         Recipient := "payroll" } rfl rfl
  exact ⟨m, by rw [hm], h1 (by decide), h2 (by decide), h3 (by decide), h4 (by decide),
    h5 (by decide), h6 (by decide), h7⟩

/-- C6: for every existing document record and every partial document passed to
`UpdateDocument`, the repository calls succeeding, each of FileName, S3Key, Status,
OwnerID, DocumentType, GroupName and Recipient that is empty in the partial leaves the
existing value of that field unchanged in the document returned; a partial whose Status
is `"UPLOADED"` and whose FileName is empty yields the Status `"UPLOADED"` with the
FileName unchanged. -/
theorem UpdateDocument_empty_fields_preserved {σ : Type} (s : documentService σ)
    (w w1 : σ) (id : String) (existing doc : Document)
    (hfind : s.repo.FindByID w id = ((some existing, none), w1))
    (hupd : (s.repo.Update w1 (documentService.UpdateDocument.merge existing doc)).1 = none) :
    ∃ merged, s.UpdateDocument w id doc
        = ((some merged, none), (s.repo.Update w1 merged).2) ∧
      (doc.FileName = "" → merged.FileName = existing.FileName) ∧
      (doc.S3Key = "" → merged.S3Key = existing.S3Key) ∧
      (doc.Status = "" → merged.Status = existing.Status) ∧
      (doc.OwnerID = "" → merged.OwnerID = existing.OwnerID) ∧
      (doc.DocumentType = "" → merged.DocumentType = existing.DocumentType) ∧
      (doc.GroupName = "" → merged.GroupName = existing.GroupName) ∧
      (doc.Recipient = "" → merged.Recipient = existing.Recipient) ∧
      (doc.Status = "UPLOADED" → doc.FileName = "" →
        merged.Status = "UPLOADED" ∧ merged.FileName = existing.FileName) := by
  refine ⟨_, UpdateDocument_of_found s w w1 id existing doc hfind hupd, ?_⟩
  rw [UpdateDocument_merge_eq]
  refine ⟨fun h => ?_, fun h => ?_, fun h => ?_, fun h => ?_, fun h => ?_, fun h => ?_,
    fun _ => rfl, fun hs hf => ⟨?_, ?_⟩⟩
  · show (if doc.FileName ≠ "" then doc.FileName else existing.FileName)
      = existing.FileName
    rw [if_neg (not_not.mpr h)]
  · show (if doc.S3Key ≠ "" then doc.S3Key else existing.S3Key) = existing.S3Key
    rw [if_neg (not_not.mpr h)]
  · show (if doc.Status ≠ "" then doc.Status else existing.Status) = existing.Status
    rw [if_neg (not_not.mpr h)]
  · show (if doc.OwnerID ≠ "" then doc.OwnerID else existing.OwnerID) = existing.OwnerID
    rw [if_neg (not_not.mpr h)]
  · show (if doc.DocumentType ≠ "" then doc.DocumentType else existing.DocumentType)
      = existing.DocumentType
    rw [if_neg (not_not.mpr h)]
  · show (if doc.GroupName ≠ "" then doc.GroupName else existing.GroupName)
      = existing.GroupName
    rw [if_neg (not_not.mpr h)]
  · show (if doc.Status ≠ "" then doc.Status else existing.Status) = "UPLOADED"
    rw [if_pos (by rw [hs]; decide), hs]
  · show (if doc.FileName ≠ "" then doc.FileName else existing.FileName)
      = existing.FileName
    rw [if_neg (not_not.mpr hf)]

/-- Witness of C6: the partial that carries only the Status `"UPLOADED"`, applied to the
stored contract. -/
theorem UpdateDocument_empty_fields_preserved_witness :
    ∃ merged, (memDocumentService.UpdateDocument [Document.contract] "d-1"
        { Document.zero with Status := "UPLOADED" }).1 = (some merged, none) ∧
      merged.Status = "UPLOADED" ∧ merged.FileName = "a.pdf" ∧
      merged.S3Key = "uploads/a.pdf_1704067200_" ∧ merged.OwnerID = "e-7" ∧
      merged.DocumentType = "contract" ∧ merged.GroupName = "hr" ∧
      merged.Recipient = "legal" := by
  obtain ⟨m, hm, h1, h2, -, h4, h5, h6, h7, h8⟩ := UpdateDocument_empty_fields_preserved
    memDocumentService [Document.contract] [Document.contract] "d-1" Document.contract
    { Document.zero with Status := "UPLOADED" } rfl rfl
  exact ⟨m, by rw [hm], (h8 rfl rfl).1, h1 rfl, h2 rfl, h4 rfl, h5 rfl, h6 rfl, h7 rfl⟩

/-- C7: for every existing document record and every partial document, the merge of
`UpdateDocument` sets RequiresSignature to the value of the partial, whatever the stored
value was; when the repository calls succeed the document handed to `Update` and
returned carries the RequiresSignature of the partial. -/
theorem UpdateDocument_RequiresSignature_overwritten {σ : Type} (s : documentService σ)
    (w w1 : σ) (id : String) (existing doc : Document) :
    (documentService.UpdateDocument.merge existing doc).RequiresSignature
        = doc.RequiresSignature ∧
    (s.repo.FindByID w id = ((some existing, none), w1) →
      (s.repo.Update w1 (documentService.UpdateDocument.merge existing doc)).1 = none →
      ∃ merged, s.UpdateDocument w id doc
          = ((some merged, none), (s.repo.Update w1 merged).2) ∧
        merged.RequiresSignature = doc.RequiresSignature) := by
  have hm : (documentService.UpdateDocument.merge existing doc).RequiresSignature
      = doc.RequiresSignature := by
    rw [UpdateDocument_merge_eq]
  exact ⟨hm, fun hfind hupd =>
    ⟨_, UpdateDocument_of_found s w w1 id existing doc hfind hupd, hm⟩⟩

/-- Witness of C7: the stored contract requires a signature; a partial that only means
to change the Status, its RequiresSignature false, turns the flag off. -/
theorem UpdateDocument_RequiresSignature_overwritten_witness :
    Document.contract.RequiresSignature = true ∧
    ∃ merged, (memDocumentService.UpdateDocument [Document.contract] "d-1"
        { Document.zero with Status := "UPLOADED" }).1 = (some merged, none) ∧
      merged.RequiresSignature = false := by
  obtain ⟨m, hm, hsig⟩ := (UpdateDocument_RequiresSignature_overwritten
    memDocumentService [Document.contract] [Document.contract] "d-1" Document.contract
    { Document.zero with Status := "UPLOADED" }).2 rfl rfl
  exact ⟨rfl, m, by rw [hm], hsig⟩

/-- C8: for every existing role record and every partial role passed to `UpdateRole`,
the repository calls succeeding, the Name of the merged role is the Name of the partial
if that is non-empty and the existing Name otherwise, and likewise for Description; the
merged role is both the record handed to the repository `Update` and the value
returned. -/
theorem UpdateRole_merges_Name_and_Description {σ : Type} (s : roleService σ)
    (w w1 : σ) (id : String) (existing role : Role)
    (hfind : s.repo.FindByID w id = ((some existing, none), w1))
    (hupd : (s.repo.Update w1 (roleService.UpdateRole.merge existing role)).1 = none) :
    ∃ merged, s.UpdateRole w id role
        = ((some merged, none), (s.repo.Update w1 merged).2) ∧
      merged = roleService.UpdateRole.merge existing role ∧
      merged.Name = (if role.Name ≠ "" then role.Name else existing.Name) ∧
      merged.Description
        = (if role.Description ≠ "" then role.Description else existing.Description) := by
  refine ⟨_, UpdateRole_of_found s w w1 id existing role hfind hupd, rfl, ?_⟩
  rw [UpdateRole_merge_eq]
  exact ⟨rfl, rfl⟩

/-- Witness of C8: a partial that carries only a Description, applied to the stored
role. -/
theorem UpdateRole_merges_Name_and_Description_witness :
    ∃ merged, memRoleService.UpdateRole [Role.admin] "r1"
        { Role.zero with Description := "read and write" }
        = ((some merged, none), (memRoleRepository.Update [Role.admin] merged).2) ∧
      merged.Name = "admin" ∧ merged.Description = "read and write" := by
  obtain ⟨m, hm, -, hn, hd⟩ := UpdateRole_merges_Name_and_Description memRoleService
    [Role.admin] [Role.admin] "r1" Role.admin
    { Role.zero with Description := "read and write" } rfl rfl
  exact ⟨m, hm, hn, hd⟩

/-! ## Absent records -/

/-- C9: for each of `UpdateDocument`, `UpdateEmployee` and `UpdateRole`, when the
repository `FindByID` returns absent with no error for the target id, the operation
returns no entity and the error whose message says the id was not found, and the store
is the one `FindByID` left; the outcome is the same whatever the `Update` function of
the repository is, that is, `Update` is not called. -/
theorem update_of_absent_is_error {σd σe σr : Type}
    (ds : documentService σd) (es : employeeService σe) (rs : roleService σr)
    (wd wd1 : σd) (we we1 : σe) (wr wr1 : σr) (id : String)
    (doc : Document) (employee : Employee) (role : Role) :
    (ds.repo.FindByID wd id = ((none, none), wd1) →
      ds.UpdateDocument wd id doc
        = ((none, some (.errorString ("document with ID " ++ id ++ " not found"))), wd1) ∧
      ∀ u : σd → Document → Option GoError × σd,
        ({ ds with repo := { ds.repo with Update := u } } : documentService σd).UpdateDocument
            wd id doc
          = ((none, some (.errorString ("document with ID " ++ id ++ " not found"))), wd1)) ∧
    (es.repo.FindByID we id = ((none, none), we1) →
      es.UpdateEmployee we id employee
        = ((none, some (.errorString ("employee with ID " ++ id ++ " not found"))), we1) ∧
      ∀ u : σe → Employee → Option GoError × σe,
        ({ es with repo := { es.repo with Update := u } } : employeeService σe).UpdateEmployee
            we id employee
          = ((none, some (.errorString ("employee with ID " ++ id ++ " not found"))), we1)) ∧
    (rs.repo.FindByID wr id = ((none, none), wr1) →
      rs.UpdateRole wr id role
        = ((none, some (.errorString ("role with ID " ++ id ++ " not found"))), wr1) ∧
      ∀ u : σr → Role → Option GoError × σr,
        ({ rs with repo := { rs.repo with Update := u } } : roleService σr).UpdateRole
            wr id role
          = ((none, some (.errorString ("role with ID " ++ id ++ " not found"))), wr1)) := by
  refine ⟨fun h => ⟨?_, fun u => ?_⟩, fun h => ⟨?_, fun u => ?_⟩,
    fun h => ⟨?_, fun u => ?_⟩⟩
  · unfold documentService.UpdateDocument
    rw [h]
    rfl
  · unfold documentService.UpdateDocument
    simp only [h]
    rfl
  · unfold employeeService.UpdateEmployee
    rw [h]
    rfl
  · unfold employeeService.UpdateEmployee
    simp only [h]
    rfl
  · unfold roleService.UpdateRole
    rw [h]
    rfl
  · unfold roleService.UpdateRole
    simp only [h]
    rfl

/-- Witness of C9: on the in-memory repositories, an update of an identifier that was
never created returns the not-found error and leaves the store as it was. -/
theorem update_of_absent_is_error_witness :
    memDocumentService.UpdateDocument [Document.contract] "d-404"
        { Document.zero with Status := "UPLOADED" }
      = ((none, some (.errorString "document with ID d-404 not found")),
         [Document.contract]) ∧
    memEmployeeService.UpdateEmployee [Employee.ana] "d-404"
        { Employee.zero with RoleID := "r1" }
      = ((none, some (.errorString "employee with ID d-404 not found")), [Employee.ana]) ∧
    memRoleService.UpdateRole [Role.admin] "d-404" { Role.zero with Name := "auditor" }
      = ((none, some (.errorString "role with ID d-404 not found")), [Role.admin]) := by
  have h := update_of_absent_is_error memDocumentService memEmployeeService memRoleService
    [Document.contract] [Document.contract] [Employee.ana] [Employee.ana]
    [Role.admin] [Role.admin] "d-404" { Document.zero with Status := "UPLOADED" }
    { Employee.zero with RoleID := "r1" } { Role.zero with Name := "auditor" }
  exact ⟨(h.1 rfl).1, (h.2.1 rfl).1, (h.2.2 rfl).1⟩

/-- C10: for each of `GetDocumentByID`, `GetEmployeeByID` and `GetRoleByID`: when the
repository `FindByID` returns absent with no error the service returns absent with no
error; when it returns an entity with no error the service returns that entity with no
error; and the service returns an error if and only if the repository returned one. -/
theorem get_by_id_passes_through {σd σe σr : Type}
    (ds : documentService σd) (es : employeeService σe) (rs : roleService σr)
    (wd wd1 : σd) (we we1 : σe) (wr wr1 : σr) (id : String) :
    ((ds.repo.FindByID wd id = ((none, none), wd1) →
        ds.GetDocumentByID wd id = ((none, none), wd1)) ∧
      (∀ doc, ds.repo.FindByID wd id = ((some doc, none), wd1) →
        ds.GetDocumentByID wd id = ((some doc, none), wd1)) ∧
      ((ds.GetDocumentByID wd id).1.2 ≠ none ↔ (ds.repo.FindByID wd id).1.2 ≠ none)) ∧
    ((es.repo.FindByID we id = ((none, none), we1) →
        es.GetEmployeeByID we id = ((none, none), we1)) ∧
      (∀ employee, es.repo.FindByID we id = ((some employee, none), we1) →
        es.GetEmployeeByID we id = ((some employee, none), we1)) ∧
      ((es.GetEmployeeByID we id).1.2 ≠ none ↔ (es.repo.FindByID we id).1.2 ≠ none)) ∧
    ((rs.repo.FindByID wr id = ((none, none), wr1) →
        rs.GetRoleByID wr id = ((none, none), wr1)) ∧
      (∀ role, rs.repo.FindByID wr id = ((some role, none), wr1) →
        rs.GetRoleByID wr id = ((some role, none), wr1)) ∧
      ((rs.GetRoleByID wr id).1.2 ≠ none ↔ (rs.repo.FindByID wr id).1.2 ≠ none)) := by
  refine ⟨⟨fun h => ?_, fun e h => ?_, ?_⟩, ⟨fun h => ?_, fun e h => ?_, ?_⟩,
    ⟨fun h => ?_, fun e h => ?_, ?_⟩⟩
  · unfold documentService.GetDocumentByID; rw [h]
  · unfold documentService.GetDocumentByID; rw [h]
  · unfold documentService.GetDocumentByID
    rcases ds.repo.FindByID wd id with ⟨⟨_ | e, _ | err⟩, w'⟩ <;> simp
  · unfold employeeService.GetEmployeeByID; rw [h]
  · unfold employeeService.GetEmployeeByID; rw [h]
  · unfold employeeService.GetEmployeeByID
    rcases es.repo.FindByID we id with ⟨⟨_ | e, _ | err⟩, w'⟩ <;> simp
  · unfold roleService.GetRoleByID; rw [h]
  · unfold roleService.GetRoleByID; rw [h]
  · unfold roleService.GetRoleByID
    rcases rs.repo.FindByID wr id with ⟨⟨_ | e, _ | err⟩, w'⟩ <;> simp

/-- Witness of C10: on the in-memory repositories, a document that was never created is
absent with no error, and a stored employee and a stored role are returned as stored. -/
theorem get_by_id_passes_through_witness :
    memDocumentService.GetDocumentByID [Document.contract] "d-404"
      = ((none, none), [Document.contract]) ∧
    memEmployeeService.GetEmployeeByID [Employee.ana] "e-7"
      = ((some Employee.ana, none), [Employee.ana]) ∧
    memRoleService.GetRoleByID [Role.admin] "r1" = ((some Role.admin, none), [Role.admin]) := by
  have h := get_by_id_passes_through memDocumentService memEmployeeService memRoleService
    [Document.contract] [Document.contract] [Employee.ana] [Employee.ana]
    [Role.admin] [Role.admin] "d-404"
  have h7 := get_by_id_passes_through memDocumentService memEmployeeService memRoleService
    [Document.contract] [Document.contract] [Employee.ana] [Employee.ana]
    [Role.admin] [Role.admin] "e-7"
  have h1 := get_by_id_passes_through memDocumentService memEmployeeService memRoleService
    [Document.contract] [Document.contract] [Employee.ana] [Employee.ana]
    [Role.admin] [Role.admin] "r1"
  exact ⟨h.1.1 rfl, h7.2.1.2.1 Employee.ana rfl, h1.2.2.2.1 Role.admin rfl⟩

/-! ## Frame of a partial update -/

/-- C11: for each of `UpdateDocument`, `UpdateEmployee` and `UpdateRole` and every
partial entity, whatever ID it carries, when the target record exists and the repository
`Update` succeeds, the merged record handed to `Update` and returned has the ID of the
fetched record; for a document the UploadDate, and for an employee the LinkDate, are
those of the fetched record too. -/
theorem update_keeps_identifier_and_dates {σd σe σr : Type}
    (ds : documentService σd) (es : employeeService σe) (rs : roleService σr)
    (wd wd1 : σd) (we we1 : σe) (wr wr1 : σr) (id : String)
    (existingDoc doc : Document) (existingEmployee employee : Employee)
    (existingRole role : Role) :
    (ds.repo.FindByID wd id = ((some existingDoc, none), wd1) →
      (ds.repo.Update wd1 (documentService.UpdateDocument.merge existingDoc doc)).1 = none →
      ∃ merged, ds.UpdateDocument wd id doc
          = ((some merged, none), (ds.repo.Update wd1 merged).2) ∧
        merged.ID = existingDoc.ID ∧ merged.UploadDate = existingDoc.UploadDate) ∧
    (es.repo.FindByID we id = ((some existingEmployee, none), we1) →
      (es.repo.Update we1
        (employeeService.UpdateEmployee.merge existingEmployee employee)).1 = none →
      ∃ merged, es.UpdateEmployee we id employee
          = ((some merged, none), (es.repo.Update we1 merged).2) ∧
        merged.ID = existingEmployee.ID ∧ merged.LinkDate = existingEmployee.LinkDate) ∧
    (rs.repo.FindByID wr id = ((some existingRole, none), wr1) →
      (rs.repo.Update wr1 (roleService.UpdateRole.merge existingRole role)).1 = none →
      ∃ merged, rs.UpdateRole wr id role
          = ((some merged, none), (rs.repo.Update wr1 merged).2) ∧
        merged.ID = existingRole.ID) := by
  refine ⟨fun hfind hupd => ?_, fun hfind hupd => ?_, fun hfind hupd => ?_⟩
  · refine ⟨_, UpdateDocument_of_found ds wd wd1 id existingDoc doc hfind hupd, ?_⟩
    rw [UpdateDocument_merge_eq]
    exact ⟨rfl, rfl⟩
  · refine ⟨_, UpdateEmployee_of_found es we we1 id existingEmployee employee hfind hupd, ?_⟩
    rw [UpdateEmployee_merge_eq]
    exact ⟨rfl, rfl⟩
  · refine ⟨_, UpdateRole_of_found rs wr wr1 id existingRole role hfind hupd, ?_⟩
    rw [UpdateRole_merge_eq]

/-- Witness of C11: partial entities that carry another ID, and another date, applied to
the stored contract, the stored Ana and the stored role. -/
theorem update_keeps_identifier_and_dates_witness :
    (∃ merged, (memDocumentService.UpdateDocument [Document.contract] "d-1"
        { Document.zero with ID := "d-2", UploadDate := ⟨63839664060, 0, 0⟩,
                             Status := "UPLOADED" }).1 = (some merged, none) ∧
      merged.ID = "d-1" ∧ merged.UploadDate = Time.sample) ∧
    (∃ merged, (memEmployeeService.UpdateEmployee [Employee.ana] "e-7"
        { Employee.zero with ID := "e-8", LinkDate := ⟨63839664060, 0, 0⟩,
                             RoleID := "r2" }).1 = (some merged, none) ∧
      merged.ID = "e-7" ∧ merged.LinkDate = Time.sample) ∧
    (∃ merged, (memRoleService.UpdateRole [Role.admin] "r1"
        { Role.zero with ID := "r9", Name := "auditor" }).1 = (some merged, none) ∧
      merged.ID = "r1") := by
  have h := update_keeps_identifier_and_dates memDocumentService memEmployeeService
    memRoleService [Document.contract] [Document.contract] [Employee.ana] [Employee.ana]
    [Role.admin] [Role.admin]
  obtain ⟨md, hd, hd1, hd2⟩ := (h "d-1" Document.contract
    { Document.zero with ID := "d-2", UploadDate := ⟨63839664060, 0, 0⟩, Status := "UPLOADED" }
    Employee.ana Employee.zero Role.admin Role.zero).1 rfl rfl
  obtain ⟨me, he, he1, he2⟩ := (h "e-7" Document.contract Document.zero Employee.ana
    { Employee.zero with ID := "e-8", LinkDate := ⟨63839664060, 0, 0⟩, RoleID := "r2" }
    Role.admin Role.zero).2.1 rfl rfl
  obtain ⟨mr, hr, hr1⟩ := (h "r1" Document.contract Document.zero Employee.ana Employee.zero
    Role.admin { Role.zero with ID := "r9", Name := "auditor" }).2.2 rfl rfl
  exact ⟨⟨md, by rw [hd], hd1, hd2⟩, ⟨me, by rw [he], he1, he2⟩, ⟨mr, by rw [hr], hr1⟩⟩

/-- C12: for every existing employee `existing` and every role id `r`, `UpdateEmployee`
with a partial whose Name, Email and Status are empty and whose RoleID is `r`, the
repository calls succeeding, hands to `Update` and returns the employee equal to
`existing` except that its RoleID is `r`: ID, Name, Email, Status and LinkDate are those
of `existing`. That `r` is non-empty is not needed. -/
theorem UpdateEmployee_RoleID_only {σ : Type} (s : employeeService σ) (w w1 : σ)
    (id r : String) (existing employee : Employee)
    (hname : employee.Name = "") (hemail : employee.Email = "")
    (hstatus : employee.Status = "") (hrole : employee.RoleID = r)
    (hfind : s.repo.FindByID w id = ((some existing, none), w1))
    (hupd : (s.repo.Update w1 { existing with RoleID := r }).1 = none) :
    s.UpdateEmployee w id employee
        = ((some { existing with RoleID := r }, none),
           (s.repo.Update w1 { existing with RoleID := r }).2) ∧
      ({ existing with RoleID := r } : Employee)
        = { ID := existing.ID, Name := existing.Name, Email := existing.Email,
            Status := existing.Status, LinkDate := existing.LinkDate, RoleID := r } := by
  have hm : employeeService.UpdateEmployee.merge existing employee
      = { existing with RoleID := r } := by
    rw [UpdateEmployee_merge_eq, hname, hemail, hstatus, hrole]
    rfl
  refine ⟨?_, rfl⟩
  rw [← hm] at hupd ⊢
  exact UpdateEmployee_of_found s w w1 id existing employee hfind hupd

/-- Witness of C12: the partial that carries only the role `r1`, applied to an Ana
stored without a role. -/
theorem UpdateEmployee_RoleID_only_witness :
    memEmployeeService.UpdateEmployee [{ Employee.ana with RoleID := "" }] "e-7"
        { Employee.zero with RoleID := "r1" }
      = ((some Employee.ana, none), [Employee.ana]) :=
  (UpdateEmployee_RoleID_only memEmployeeService [{ Employee.ana with RoleID := "" }]
    [{ Employee.ana with RoleID := "" }] "e-7" "r1" { Employee.ana with RoleID := "" }
    { Employee.zero with RoleID := "r1" } rfl rfl rfl rfl rfl rfl).1

/-- C18: the merge of each partial update is idempotent: merging the partial `p` into
the result of merging `p` into `e` gives the result of merging `p` into `e` once, for the
document, the employee and the role merge. -/
theorem update_merge_idempotent (ed pd : Document) (ee pe : Employee) (er pr : Role) :
    documentService.UpdateDocument.merge (documentService.UpdateDocument.merge ed pd) pd
        = documentService.UpdateDocument.merge ed pd ∧
    employeeService.UpdateEmployee.merge (employeeService.UpdateEmployee.merge ee pe) pe
        = employeeService.UpdateEmployee.merge ee pe ∧
    roleService.UpdateRole.merge (roleService.UpdateRole.merge er pr) pr
        = roleService.UpdateRole.merge er pr := by
  refine ⟨?_, ?_, ?_⟩
  · rw [UpdateDocument_merge_eq (documentService.UpdateDocument.merge ed pd) pd,
      UpdateDocument_merge_eq ed pd]
    simp only [Document.mk.injEq, true_and, and_true]
    refine ⟨?_, ?_, ?_, ?_, ?_, ?_⟩ <;> split_ifs <;> rfl
  · rw [UpdateEmployee_merge_eq (employeeService.UpdateEmployee.merge ee pe) pe,
      UpdateEmployee_merge_eq ee pe]
    simp only [Employee.mk.injEq, true_and, and_true]
    refine ⟨?_, ?_, ?_⟩ <;> split_ifs <;> rfl
  · rw [UpdateRole_merge_eq (roleService.UpdateRole.merge er pr) pr,
      UpdateRole_merge_eq er pr]
    simp only [Role.mk.injEq, true_and]
    refine ⟨?_, ?_⟩ <;> split_ifs <;> rfl

/-! ## Creation: the call to `Save` -/

/-- The populated role, field by field. -/
theorem CreateRole_populate_eq (uuidNew : String) (role : Role) :
    roleService.CreateRole.populate uuidNew role
      = { ID := if role.ID = "" then uuidNew else role.ID,
          Name := role.Name,
          Description := role.Description } := by
  cases role
  simp only [roleService.CreateRole.populate]
  split_ifs <;> simp_all

/-- C17: for each of `CreateDocument`, `CreateEmployee` and `CreateRole`, run on a
repository that records its calls: exactly one call is recorded, a `Save` of the fully
populated entity `saved`, and the store is the one that `Save` left. The entity `saved`
is the input with the generated identifier in place of an empty ID and, for a document,
the clock reading in place of a zero UploadDate and `PENDING_UPLOAD` in place of an
empty Status, for an employee, the clock reading in place of a zero LinkDate and
`Activo` in place of an empty Status; every other field is the input's. If `Save`
returns an error `e` the operation returns no entity and the error that wraps `e` behind
a context message; if `Save` succeeds the operation returns `saved` and no error. -/
theorem create_saves_populated_entity_once {σd σe σr : Type}
    (fs : FileStorage (σd × List (RepositoryCall Document)))
    (rd : DocumentRepository σd) (re : EmployeeRepository σe) (rr : RoleRepository σr)
    (uuidNew : String) (timeNow : Time) (wd : σd) (we : σe) (wr : σr)
    (logd : List (RepositoryCall Document)) (loge : List (RepositoryCall Employee))
    (logr : List (RepositoryCall Role))
    (doc : Document) (employee : Employee) (role : Role) :
    (∃ saved : Document,
      saved = { ID := if doc.ID = "" then uuidNew else doc.ID,
                FileName := doc.FileName,
                S3Key := doc.S3Key,
                UploadDate := if doc.UploadDate.IsZero = true then timeNow else doc.UploadDate,
                Status := if doc.Status = "" then "PENDING_UPLOAD" else doc.Status,
                OwnerID := doc.OwnerID,
                RequiresSignature := doc.RequiresSignature,
                DocumentType := doc.DocumentType,
                GroupName := doc.GroupName,
                Recipient := doc.Recipient } ∧
      ((⟨fs, rd.recording⟩ : documentService _).CreateDocument uuidNew timeNow
          (wd, logd) doc).2 = ((rd.Save wd saved).2, logd ++ [.Save saved]) ∧
      (∀ e, (rd.Save wd saved).1 = some e →
        ((⟨fs, rd.recording⟩ : documentService _).CreateDocument uuidNew timeNow
            (wd, logd) doc).1
          = (none, some (.wrapError ("failed to save document: " ++ e.Error) e))) ∧
      ((rd.Save wd saved).1 = none →
        ((⟨fs, rd.recording⟩ : documentService _).CreateDocument uuidNew timeNow
            (wd, logd) doc).1 = (some saved, none))) ∧
    (∃ saved : Employee,
      saved = { ID := if employee.ID = "" then uuidNew else employee.ID,
                Name := employee.Name,
                Email := employee.Email,
                Status := if employee.Status = "" then "Activo" else employee.Status,
                LinkDate :=
                  if employee.LinkDate.IsZero = true then timeNow else employee.LinkDate,
                RoleID := employee.RoleID } ∧
      ((⟨re.recording⟩ : employeeService _).CreateEmployee uuidNew timeNow
          (we, loge) employee).2 = ((re.Save we saved).2, loge ++ [.Save saved]) ∧
      (∀ e, (re.Save we saved).1 = some e →
        ((⟨re.recording⟩ : employeeService _).CreateEmployee uuidNew timeNow
            (we, loge) employee).1
          = (none, some (.wrapError ("failed to save employee: " ++ e.Error) e))) ∧
      ((re.Save we saved).1 = none →
        ((⟨re.recording⟩ : employeeService _).CreateEmployee uuidNew timeNow
            (we, loge) employee).1 = (some saved, none))) ∧
    (∃ saved : Role,
      saved = { ID := if role.ID = "" then uuidNew else role.ID,
                Name := role.Name,
                Description := role.Description } ∧
      ((⟨rr.recording⟩ : roleService _).CreateRole uuidNew (wr, logr) role).2
        = ((rr.Save wr saved).2, logr ++ [.Save saved]) ∧
      (∀ e, (rr.Save wr saved).1 = some e →
        ((⟨rr.recording⟩ : roleService _).CreateRole uuidNew (wr, logr) role).1
          = (none, some (.wrapError ("failed to save role: " ++ e.Error) e))) ∧
      ((rr.Save wr saved).1 = none →
        ((⟨rr.recording⟩ : roleService _).CreateRole uuidNew (wr, logr) role).1
          = (some saved, none))) := by
  refine ⟨⟨_, rfl, ?_⟩, ⟨_, rfl, ?_⟩, ⟨_, rfl, ?_⟩⟩
  · rw [← CreateDocument_populate_eq uuidNew timeNow doc]
    unfold documentService.CreateDocument DocumentRepository.recording
    simp only
    rcases hs : rd.Save wd (documentService.CreateDocument.populate uuidNew timeNow doc)
      with ⟨_ | err, w'⟩
    · exact ⟨rfl, fun e he => (by cases he), fun _ => rfl⟩
    · refine ⟨rfl, fun e he => ?_, fun h => by cases h⟩
      cases he
      rfl
  · rw [← CreateEmployee_populate_eq uuidNew timeNow employee]
    unfold employeeService.CreateEmployee EmployeeRepository.recording
    simp only
    rcases hs : re.Save we (employeeService.CreateEmployee.populate uuidNew timeNow employee)
      with ⟨_ | err, w'⟩
    · exact ⟨rfl, fun e he => (by cases he), fun _ => rfl⟩
    · refine ⟨rfl, fun e he => ?_, fun h => by cases h⟩
      cases he
      rfl
  · rw [← CreateRole_populate_eq uuidNew role]
    unfold roleService.CreateRole RoleRepository.recording
    simp only
    rcases hs : rr.Save wr (roleService.CreateRole.populate uuidNew role) with ⟨_ | err, w'⟩
    · exact ⟨rfl, fun e he => (by cases he), fun _ => rfl⟩
    · refine ⟨rfl, fun e he => ?_, fun h => by cases h⟩
      cases he
      rfl

/-- Witness of C17: a document created on the recording in-memory repository is saved
once and returned as saved; an employee created on a recording repository whose store is
out of reach is not returned, and the error wraps the error of `Save`. -/
theorem create_saves_populated_entity_once_witness :
    (⟨downFileStorage _, memDocumentRepository.recording⟩ : documentService _).CreateDocument
        "3f2a-01" Time.sample ([], []) { Document.zero with FileName := "a.pdf" }
      = ((some { Document.zero with ID := "3f2a-01", FileName := "a.pdf",
                                    UploadDate := Time.sample, Status := "PENDING_UPLOAD" },
          none),
         ([{ Document.zero with ID := "3f2a-01", FileName := "a.pdf",
                                UploadDate := Time.sample, Status := "PENDING_UPLOAD" }],
          [.Save { Document.zero with ID := "3f2a-01", FileName := "a.pdf",
                                      UploadDate := Time.sample,
                                      Status := "PENDING_UPLOAD" }])) ∧
    ((⟨(brokenEmployeeRepository (List Employee)).recording⟩ :
        employeeService _).CreateEmployee "3f2a-01" Time.sample ([], [])
        { Employee.zero with Name := "Ana" }).1
      = (none, some (.wrapError
          "failed to save employee: failed to put item in DynamoDB: timeout"
          (.errorString "failed to put item in DynamoDB: timeout"))) := by
  have h := create_saves_populated_entity_once (downFileStorage _) memDocumentRepository
    (brokenEmployeeRepository (List Employee)) memRoleRepository "3f2a-01" Time.sample
    [] [] [] [] [] [] { Document.zero with FileName := "a.pdf" }
    { Employee.zero with Name := "Ana" } Role.zero
  obtain ⟨sd, hsd, hstate, -, hok⟩ := h.1
  obtain ⟨se, hse, -, herr, -⟩ := h.2.1
  subst hsd hse
  exact ⟨Prod.ext (hok rfl) hstate, herr _ rfl⟩

/-! ## Upload coordination -/

/-- What the S3 file storage returns when the presign client signs the request. -/
theorem GeneratePresignedUploadURL_of_signed (s : s3FileStorage) (timeNow : Time)
    (environ : String → Option String) (fileName url : String)
    (hsign : s.presigner.PresignPutObject s.bucketName
      (s3FileStorage.GeneratePresignedUploadURL.key fileName timeNow.Unix
        (os.Getenv environ "AWS_REQUEST_ID")) (5 * 60)
        = .ok url) :
    s.GeneratePresignedUploadURL timeNow environ fileName
      = (url, s3FileStorage.GeneratePresignedUploadURL.key fileName timeNow.Unix
          (os.Getenv environ "AWS_REQUEST_ID"), none) := by
  unfold s3FileStorage.GeneratePresignedUploadURL
  simp only [hsign]

/-- What the S3 file storage returns when the presign client reports an error. -/
theorem GeneratePresignedUploadURL_of_error (s : s3FileStorage) (timeNow : Time)
    (environ : String → Option String) (fileName : String) (err : GoError)
    (hsign : s.presigner.PresignPutObject s.bucketName
      (s3FileStorage.GeneratePresignedUploadURL.key fileName timeNow.Unix
        (os.Getenv environ "AWS_REQUEST_ID")) (5 * 60)
        = .error err) :
    s.GeneratePresignedUploadURL timeNow environ fileName
      = ("", "", some (.wrapError ("failed to presign put object: " ++ err.Error) err)) := by
  unfold s3FileStorage.GeneratePresignedUploadURL
  simp only [hsign]
  rfl

/-- C13: for every file name `fileName`, clock reading `timeNow` and process environment
`environ`, the storage key that `GeneratePresignedUploadURL` hands to the presign client
is `"uploads/" ++ fileName ++ "_" ++ decimal (Unix seconds) ++ "_" ++ r`, where `r` is
the value of `AWS_REQUEST_ID` and the empty string when the environment has none; when
the presign client signs the request, that key is the second component returned by the
adapter and, unchanged, by `documentService.RequestUploadURL` over the adapter. -/
theorem RequestUploadURL_storage_key {σ : Type} (ds : documentService σ) (s : s3FileStorage)
    (clock : σ → Time) (environ : σ → String → Option String) (w : σ)
    (fileName url : String)
    (hport : ds.fileStorage = s.port clock environ)
    (hsign : s.presigner.PresignPutObject s.bucketName
      ("uploads/" ++ fileName ++ "_" ++ fmt.decimal (clock w).Unix ++ "_"
        ++ (match environ w "AWS_REQUEST_ID" with
            | some r => r
            | none => "")) (5 * 60) = .ok url) :
    ds.RequestUploadURL w fileName
      = ((url,
          "uploads/" ++ fileName ++ "_" ++ fmt.decimal (clock w).Unix ++ "_"
            ++ (match environ w "AWS_REQUEST_ID" with
                | some r => r
                | none => ""),
          none), w) ∧
    (ds.RequestUploadURL w fileName).1.2.1
      = (s.GeneratePresignedUploadURL (clock w) (environ w) fileName).2.1 := by
  have hkey : s3FileStorage.GeneratePresignedUploadURL.key fileName (clock w).Unix
      (os.Getenv (environ w) "AWS_REQUEST_ID")
      = "uploads/" ++ fileName ++ "_" ++ fmt.decimal (clock w).Unix ++ "_"
        ++ (match environ w "AWS_REQUEST_ID" with
            | some r => r
            | none => "") := by
    unfold s3FileStorage.GeneratePresignedUploadURL.key os.Getenv
    cases environ w "AWS_REQUEST_ID" <;> rfl
  rw [← hkey] at hsign ⊢
  have hgen := GeneratePresignedUploadURL_of_signed s (clock w) (environ w) fileName url hsign
  unfold documentService.RequestUploadURL
  rw [hport]
  unfold s3FileStorage.port
  simp only [hgen, and_self]

/-- Witness of C13: `a.pdf` at the Unix second 1704067200, without a request identifier
and with the request identifier `req-42`. -/
theorem RequestUploadURL_storage_key_witness :
    (s3DocumentService signingPresignClient).RequestUploadURL Surroundings.sample "a.pdf"
      = (("https://collie-docs.s3.test/uploads/a.pdf_1704067200_?sig",
          "uploads/a.pdf_1704067200_", none), Surroundings.sample) ∧
    ((s3DocumentService signingPresignClient).RequestUploadURL
        { Surroundings.sample with
            environ := fun k => if k = "AWS_REQUEST_ID" then some "req-42" else none }
        "a.pdf").1.2.1 = "uploads/a.pdf_1704067200_req-42" := by
  have h1 := (RequestUploadURL_storage_key (s3DocumentService signingPresignClient)
    { presigner := signingPresignClient, bucketName := "collie-docs" }
    Surroundings.timeNow Surroundings.environ Surroundings.sample "a.pdf"
    "https://collie-docs.s3.test/uploads/a.pdf_1704067200_?sig" rfl rfl).1
  have h2 := (RequestUploadURL_storage_key (s3DocumentService signingPresignClient)
    { presigner := signingPresignClient, bucketName := "collie-docs" }
    Surroundings.timeNow Surroundings.environ
    { Surroundings.sample with
        environ := fun k => if k = "AWS_REQUEST_ID" then some "req-42" else none }
    "a.pdf" "https://collie-docs.s3.test/uploads/a.pdf_1704067200_req-42?sig" rfl rfl).1
  refine ⟨h1, ?_⟩
  rw [h2]
  rfl

/-! ## Storage keys -/

/-- Every decimal digit is written as a digit character. -/
theorem digitChar_isDigit : ∀ d, d < 10 → (Nat.digitChar d).isDigit = true := by decide

/-- The value of a digit character is the digit. -/
theorem digitChar_toNat : ∀ d, d < 10 → (Nat.digitChar d).toNat - 48 = d := by decide

/-- The digits written by `Nat.toDigitsCore` in base ten are digit characters. -/
theorem toDigitsCore_isDigit (fuel : Nat) : ∀ (n : Nat) (ds : List Char),
    (∀ c ∈ ds, c.isDigit = true) → ∀ c ∈ Nat.toDigitsCore 10 fuel n ds, c.isDigit = true := by
  induction fuel with
  | zero => intro n ds hds; simpa [Nat.toDigitsCore] using hds
  | succ fuel ih =>
    intro n ds hds
    have hd : ∀ c ∈ Nat.digitChar (n % 10) :: ds, c.isDigit = true := by
      intro c hc
      rcases List.mem_cons.mp hc with rfl | hc
      · exact digitChar_isDigit _ (Nat.mod_lt _ (by decide))
      · exact hds c hc
    simp only [Nat.toDigitsCore]
    split_ifs with h
    · exact hd
    · exact ih _ _ hd

/-- Reading back the digits written by `Nat.toDigitsCore` in base ten, with enough fuel,
gives the number written. -/
theorem toDigitsCore_readDecimal (fuel : Nat) : ∀ (n : Nat) (ds : List Char),
    n < fuel → readDecimal 0 (Nat.toDigitsCore 10 fuel n ds) = readDecimal n ds := by
  induction fuel with
  | zero => intro n ds h; omega
  | succ fuel ih =>
    intro n ds hn
    simp only [Nat.toDigitsCore]
    split_ifs with h
    · simp only [readDecimal, List.foldl_cons, digitChar_toNat _ (Nat.mod_lt n (by decide))]
      congr 1
      omega
    · rw [ih (n / 10) _ (by omega)]
      simp only [readDecimal, List.foldl_cons, digitChar_toNat _ (Nat.mod_lt n (by decide))]
      congr 1
      omega

/-- The decimal text of a natural number determines the number. -/
theorem Nat_repr_injective (m n : Nat) (h : Nat.repr m = Nat.repr n) : m = n := by
  have hd : Nat.toDigits 10 m = Nat.toDigits 10 n := by
    have := congrArg String.data h
    simpa [Nat.repr, List.asString] using this
  have hm := toDigitsCore_readDecimal (m + 1) m [] (by omega)
  have hn := toDigitsCore_readDecimal (n + 1) n [] (by omega)
  simp only [readDecimal, List.foldl_nil] at hm hn
  unfold Nat.toDigits at hd
  rw [← hm, ← hn, hd]

/-- The decimal text of a natural number consists of digit characters. -/
theorem Nat_repr_isDigit (n : Nat) : ∀ c ∈ (Nat.repr n).data, c.isDigit = true := by
  have := toDigitsCore_isDigit (n + 1) n [] (by simp)
  simpa [Nat.repr, List.asString, Nat.toDigits] using this

/-- The decimal text of an integer determines the integer. -/
theorem decimal_injective (a b : Int) (h : fmt.decimal a = fmt.decimal b) : a = b := by
  have hdash : ∀ (m n : Nat), "-" ++ Nat.repr m ≠ Nat.repr n := by
    intro m n heq
    have hmem : '-' ∈ (Nat.repr n).data := by
      rw [← heq, String.data_append]
      exact List.mem_append_left _ (List.mem_singleton.mpr rfl)
    have := Nat_repr_isDigit n '-' hmem
    exact absurd this (by decide)
  cases a with
  | ofNat m =>
    cases b with
    | ofNat n => exact congrArg Int.ofNat (Nat_repr_injective m n h)
    | negSucc n => exact absurd h.symm (hdash _ _)
  | negSucc m =>
    cases b with
    | ofNat n => exact absurd h (hdash _ _)
    | negSucc n =>
      have h2 : Nat.repr (m + 1) = Nat.repr (n + 1) := by
        have := congrArg String.data h
        simp only [fmt.decimal, String.data_append, List.append_cancel_left_eq] at this
        exact String.ext this
      have := Nat_repr_injective _ _ h2
      have hmn : m = n := by omega
      rw [hmn]

/-- The decimal text of an integer has no underscore. -/
theorem decimal_no_underscore (a : Int) : '_' ∉ (fmt.decimal a).data := by
  intro hmem
  cases a with
  | ofNat m => exact absurd (Nat_repr_isDigit m '_' hmem) (by decide)
  | negSucc m =>
    simp only [fmt.decimal, String.data_append, List.mem_append] at hmem
    rcases hmem with h | h
    · exact absurd (List.mem_singleton.mp h) (by decide)
    · exact absurd (Nat_repr_isDigit _ '_' h) (by decide)

/-- Two lists split at an element that the parts before it lack are split alike. -/
theorem append_cons_inj_left {α : Type} (x : α) : ∀ (a c b d : List α),
    x ∉ a → x ∉ c → a ++ x :: b = c ++ x :: d → a = c ∧ b = d := by
  intro a
  induction a with
  | nil =>
    intro c b d _ hc h
    cases c with
    | nil => exact ⟨rfl, (List.cons.inj h).2⟩
    | cons y c =>
      have hxy : x = y := (List.cons.inj h).1
      exact absurd (List.mem_cons.mpr (Or.inl hxy)) hc
  | cons z a ih =>
    intro c b d ha hc h
    cases c with
    | nil =>
      have hzx : z = x := (List.cons.inj h).1
      exact absurd (List.mem_cons.mpr (Or.inl hzx.symm)) ha
    | cons y c =>
      have h1 := List.cons.inj h
      have ha2 : x ∉ a := fun hmem => ha (List.mem_cons_of_mem _ hmem)
      have hc2 : x ∉ c := fun hmem => hc (List.mem_cons_of_mem _ hmem)
      obtain ⟨hac, hbd⟩ := ih c b d ha2 hc2 h1.2
      exact ⟨by rw [h1.1, hac], hbd⟩

/-- Two lists split at an element that the parts after it lack are split alike. -/
theorem append_cons_inj_right {α : Type} (x : α) (a c b d : List α)
    (hb : x ∉ b) (hd : x ∉ d) (h : a ++ x :: b = c ++ x :: d) : a = c ∧ b = d := by
  have hr : b.reverse ++ x :: a.reverse = d.reverse ++ x :: c.reverse := by
    have := congrArg List.reverse h
    simpa using this
  obtain ⟨h1, h2⟩ := append_cons_inj_left x b.reverse d.reverse a.reverse c.reverse
    (by simpa using hb) (by simpa using hd) hr
  exact ⟨List.reverse_injective h2, List.reverse_injective h1⟩

/-- The characters of a storage key. -/
theorem key_data (f : String) (t : Int) (r : String) :
    (s3FileStorage.GeneratePresignedUploadURL.key f t r).data
      = "uploads/".data ++ (f.data ++ '_' :: ((fmt.decimal t).data ++ '_' :: r.data)) := by
  simp only [s3FileStorage.GeneratePresignedUploadURL.key, String.data_append,
    List.append_assoc]
  rfl

/-- Storage keys built from file names without underscore determine their three parts. -/
theorem key_inj_of_fileName (f1 f2 : String) (t1 t2 : Int) (r1 r2 : String)
    (hf1 : '_' ∉ f1.data) (hf2 : '_' ∉ f2.data)
    (h : s3FileStorage.GeneratePresignedUploadURL.key f1 t1 r1
      = s3FileStorage.GeneratePresignedUploadURL.key f2 t2 r2) :
    f1 = f2 ∧ t1 = t2 ∧ r1 = r2 := by
  have hd := congrArg String.data h
  rw [key_data, key_data] at hd
  have hd := List.append_cancel_left hd
  obtain ⟨hf, hrest⟩ := append_cons_inj_left '_' _ _ _ _ hf1 hf2 hd
  obtain ⟨ht, hr⟩ := append_cons_inj_left '_' _ _ _ _ (decimal_no_underscore t1)
    (decimal_no_underscore t2) hrest
  exact ⟨String.ext hf, decimal_injective _ _ (String.ext ht), String.ext hr⟩

/-- Storage keys built from request identifiers without underscore determine their three
parts. -/
theorem key_inj_of_requestID (f1 f2 : String) (t1 t2 : Int) (r1 r2 : String)
    (hr1 : '_' ∉ r1.data) (hr2 : '_' ∉ r2.data)
    (h : s3FileStorage.GeneratePresignedUploadURL.key f1 t1 r1
      = s3FileStorage.GeneratePresignedUploadURL.key f2 t2 r2) :
    f1 = f2 ∧ t1 = t2 ∧ r1 = r2 := by
  have hd := congrArg String.data h
  rw [key_data, key_data] at hd
  have hd := List.append_cancel_left hd
  have hd2 : (f1.data ++ '_' :: (fmt.decimal t1).data) ++ '_' :: r1.data
      = (f2.data ++ '_' :: (fmt.decimal t2).data) ++ '_' :: r2.data := by
    simpa using hd
  obtain ⟨hft, hr⟩ := append_cons_inj_right '_' _ _ _ _ hr1 hr2 hd2
  obtain ⟨hf, ht⟩ := append_cons_inj_right '_' _ _ _ _ (decimal_no_underscore t1)
    (decimal_no_underscore t2) hft
  exact ⟨String.ext hf, decimal_injective _ _ (String.ext ht), String.ext hr⟩

/-- Storage keys built from the same file name determine the Unix second and the request
identifier. -/
theorem key_inj_of_same_fileName (f : String) (t1 t2 : Int) (r1 r2 : String)
    (h : s3FileStorage.GeneratePresignedUploadURL.key f t1 r1
      = s3FileStorage.GeneratePresignedUploadURL.key f t2 r2) :
    t1 = t2 ∧ r1 = r2 := by
  have hd := congrArg String.data h
  rw [key_data, key_data] at hd
  have hd := List.append_cancel_left (List.append_cancel_left hd)
  have hd := (List.cons.inj hd).2
  obtain ⟨ht, hr⟩ := append_cons_inj_left '_' _ _ _ _ (decimal_no_underscore t1)
    (decimal_no_underscore t2) hd
  exact ⟨decimal_injective _ _ (String.ext ht), String.ext hr⟩

/-- Over the S3 adapter, when the presign client signs the request, `RequestUploadURL`
returns the URL signed, the key built, no error, and the state as it was. -/
theorem RequestUploadURL_of_signed {σ : Type} (ds : documentService σ) (s : s3FileStorage)
    (clock : σ → Time) (environ : σ → String → Option String) (w : σ)
    (fileName url : String)
    (hport : ds.fileStorage = s.port clock environ)
    (hsign : s.presigner.PresignPutObject s.bucketName
      (s3FileStorage.GeneratePresignedUploadURL.key fileName (clock w).Unix
        (os.Getenv (environ w) "AWS_REQUEST_ID")) (5 * 60) = .ok url) :
    ds.RequestUploadURL w fileName
      = ((url, s3FileStorage.GeneratePresignedUploadURL.key fileName (clock w).Unix
            (os.Getenv (environ w) "AWS_REQUEST_ID"), none), w) := by
  have hgen := GeneratePresignedUploadURL_of_signed s (clock w) (environ w) fileName url hsign
  unfold documentService.RequestUploadURL
  rw [hport]
  unfold s3FileStorage.port
  simp only [hgen]

/-- C14, as stated, fails: two calls of `RequestUploadURL` for `invoice.pdf`, at two
instants of the same second and with no request identifier in the environment, both
succeed and return the same storage key. -/
theorem RequestUploadURL_twice_same_key :
    (⟨63839664000, 100000000, 0⟩ : Time) ≠ ⟨63839664000, 900000000, 0⟩ ∧
    ((s3DocumentService signingPresignClient).RequestUploadURL
        { timeNow := ⟨63839664000, 100000000, 0⟩, environ := fun _ => none }
        "invoice.pdf").1
      = ("https://collie-docs.s3.test/uploads/invoice.pdf_1704067200_?sig",
         "uploads/invoice.pdf_1704067200_", none) ∧
    ((s3DocumentService signingPresignClient).RequestUploadURL
        { timeNow := ⟨63839664000, 900000000, 0⟩, environ := fun _ => none }
        "invoice.pdf").1
      = ("https://collie-docs.s3.test/uploads/invoice.pdf_1704067200_?sig",
         "uploads/invoice.pdf_1704067200_", none) ∧
    ¬ ((s3DocumentService signingPresignClient).RequestUploadURL
          { timeNow := ⟨63839664000, 100000000, 0⟩, environ := fun _ => none }
          "invoice.pdf").1.2.1
        ≠ ((s3DocumentService signingPresignClient).RequestUploadURL
          { timeNow := ⟨63839664000, 900000000, 0⟩, environ := fun _ => none }
          "invoice.pdf").1.2.1 := by
  refine ⟨by decide, rfl, rfl, ?_⟩
  intro h
  exact h rfl

/-- C14, amended: for every file name, two successful calls of `RequestUploadURL` over
the S3 adapter with that file name return two distinct storage keys if and only if the
two calls read different Unix seconds from the clock or different request identifiers
from the environment. -/
theorem RequestUploadURL_keys_distinct_iff {σ : Type} (ds : documentService σ)
    (s : s3FileStorage) (clock : σ → Time) (environ : σ → String → Option String)
    (w1 w2 : σ) (fileName url1 url2 : String)
    (hport : ds.fileStorage = s.port clock environ)
    (hsign1 : s.presigner.PresignPutObject s.bucketName
      (s3FileStorage.GeneratePresignedUploadURL.key fileName (clock w1).Unix
        (os.Getenv (environ w1) "AWS_REQUEST_ID")) (5 * 60) = .ok url1)
    (hsign2 : s.presigner.PresignPutObject s.bucketName
      (s3FileStorage.GeneratePresignedUploadURL.key fileName (clock w2).Unix
        (os.Getenv (environ w2) "AWS_REQUEST_ID")) (5 * 60) = .ok url2) :
    (ds.RequestUploadURL w1 fileName).1.2.2 = none ∧
    (ds.RequestUploadURL w2 fileName).1.2.2 = none ∧
    ((ds.RequestUploadURL w1 fileName).1.2.1 ≠ (ds.RequestUploadURL w2 fileName).1.2.1 ↔
      ((clock w1).Unix ≠ (clock w2).Unix ∨
        os.Getenv (environ w1) "AWS_REQUEST_ID"
          ≠ os.Getenv (environ w2) "AWS_REQUEST_ID")) := by
  rw [RequestUploadURL_of_signed ds s clock environ w1 fileName url1 hport hsign1,
    RequestUploadURL_of_signed ds s clock environ w2 fileName url2 hport hsign2]
  refine ⟨rfl, rfl, ?_⟩
  constructor
  · intro hne
    by_contra hcon
    push_neg at hcon
    apply hne
    show s3FileStorage.GeneratePresignedUploadURL.key fileName (clock w1).Unix
        (os.Getenv (environ w1) "AWS_REQUEST_ID")
      = s3FileStorage.GeneratePresignedUploadURL.key fileName (clock w2).Unix
        (os.Getenv (environ w2) "AWS_REQUEST_ID")
    rw [hcon.1, hcon.2]
  · intro hor heq
    have hkeys := key_inj_of_same_fileName fileName _ _ _ _ heq
    rcases hor with h | h
    · exact h hkeys.1
    · exact h hkeys.2

/-- Witness of the amended C14: two calls for `invoice.pdf` one second apart return two
distinct keys. -/
theorem RequestUploadURL_keys_distinct_iff_witness :
    ((s3DocumentService signingPresignClient).RequestUploadURL
        { timeNow := ⟨63839664000, 0, 0⟩, environ := fun _ => none } "invoice.pdf").1.2.1
      ≠ ((s3DocumentService signingPresignClient).RequestUploadURL
        { timeNow := ⟨63839664001, 0, 0⟩, environ := fun _ => none } "invoice.pdf").1.2.1 :=
  (RequestUploadURL_keys_distinct_iff (s3DocumentService signingPresignClient)
    { presigner := signingPresignClient, bucketName := "collie-docs" }
    Surroundings.timeNow Surroundings.environ
    { timeNow := ⟨63839664000, 0, 0⟩, environ := fun _ => none }
    { timeNow := ⟨63839664001, 0, 0⟩, environ := fun _ => none } "invoice.pdf"
    "https://collie-docs.s3.test/uploads/invoice.pdf_1704067200_?sig"
    "https://collie-docs.s3.test/uploads/invoice.pdf_1704067201_?sig"
    rfl rfl rfl).2.2.mpr (Or.inl (by decide))

/-- C19, as stated, fails: the file name `scan` at the Unix second 1704067200 with the
request identifier `1704067201_job`, and the file name `scan_1704067200` at the Unix
second 1704067201 with the request identifier `job`, give the same storage key. -/
theorem storage_key_not_injective :
    (("scan", (1704067200 : Int), "1704067201_job") : String × Int × String)
      ≠ ("scan_1704067200", 1704067201, "job") ∧
    s3FileStorage.GeneratePresignedUploadURL.key "scan" 1704067200 "1704067201_job"
      = "uploads/scan_1704067200_1704067201_job" ∧
    s3FileStorage.GeneratePresignedUploadURL.key "scan_1704067200" 1704067201 "job"
      = "uploads/scan_1704067200_1704067201_job" ∧
    ¬ (s3FileStorage.GeneratePresignedUploadURL.key "scan" 1704067200 "1704067201_job"
      ≠ s3FileStorage.GeneratePresignedUploadURL.key "scan_1704067200" 1704067201 "job") := by
  refine ⟨by decide, by decide, by decide, ?_⟩
  intro h
  exact h (by decide)

/-- C19, amended: the storage-key construction of `GeneratePresignedUploadURL` is
injective on request identifiers without underscore, and on file names without
underscore: for all file names `f1`, `f2`, Unix times `t1`, `t2` and request identifiers
`r1`, `r2`, if neither `r1` nor `r2` contains an underscore, or neither `f1` nor `f2`
does, and `(f1, t1, r1)` differs from `(f2, t2, r2)`, then the two keys differ. -/
theorem storage_key_injective_without_underscore (f1 f2 : String) (t1 t2 : Int)
    (r1 r2 : String)
    (hfree : ('_' ∉ r1.data ∧ '_' ∉ r2.data) ∨ ('_' ∉ f1.data ∧ '_' ∉ f2.data))
    (hne : (f1, t1, r1) ≠ (f2, t2, r2)) :
    s3FileStorage.GeneratePresignedUploadURL.key f1 t1 r1
      ≠ s3FileStorage.GeneratePresignedUploadURL.key f2 t2 r2 := by
  intro heq
  apply hne
  rcases hfree with ⟨h1, h2⟩ | ⟨h1, h2⟩
  · obtain ⟨hf, ht, hr⟩ := key_inj_of_requestID f1 f2 t1 t2 r1 r2 h1 h2 heq
    rw [hf, ht, hr]
  · obtain ⟨hf, ht, hr⟩ := key_inj_of_fileName f1 f2 t1 t2 r1 r2 h1 h2 heq
    rw [hf, ht, hr]

/-- Witness of the amended C19: with the request identifier `req-42` on both sides, the
file names `scan` and `scan_1704067200` give different keys at the Unix seconds
1704067200 and 1704067201. -/
theorem storage_key_injective_without_underscore_witness :
    s3FileStorage.GeneratePresignedUploadURL.key "scan" 1704067200 "req-42"
      ≠ s3FileStorage.GeneratePresignedUploadURL.key "scan_1704067200" 1704067201 "req-42" :=
  storage_key_injective_without_underscore "scan" "scan_1704067200" 1704067200 1704067201
    "req-42" "req-42" (Or.inl ⟨by decide, by decide⟩) (by decide)

/-- C16, as stated, fails: over a file storage that is out of service, whose error is
`storage unavailable`, `RequestUploadURL` returns that very error: its message has no
context before it and unwrapping it gives nothing. -/
theorem RequestUploadURL_error_not_wrapped :
    (memDocumentService.fileStorage.GeneratePresignedUploadURL [] "invoice.pdf").1.2.2
      = some (.errorString "storage unavailable") ∧
    (memDocumentService.RequestUploadURL [] "invoice.pdf").1.2.2
      = some (.errorString "storage unavailable") ∧
    ¬ ∃ err, (memDocumentService.RequestUploadURL [] "invoice.pdf").1.2.2 = some err ∧
      err.Unwrap = some (.errorString "storage unavailable") := by
  refine ⟨rfl, rfl, ?_⟩
  rintro ⟨err, herr, hunwrap⟩
  have h : (memDocumentService.RequestUploadURL [] "invoice.pdf").1.2.2
      = some (.errorString "storage unavailable") := rfl
  rw [h] at herr
  injection herr with herr
  rw [← herr] at hunwrap
  cases hunwrap

/-- C16, amended: when the file storage port's `GeneratePresignedUploadURL` returns an
error `e`, `RequestUploadURL` returns `e` itself, with the URL and the key of the port
and with no context added by the service; over the S3 adapter, when the presign client
reports an error `e0`, the error returned is the one the adapter built, which wraps `e0`
behind the context `failed to presign put object: `. -/
theorem RequestUploadURL_returns_port_error {σ : Type} (ds : documentService σ) (w : σ)
    (fileName : String) :
    (∀ e, (ds.fileStorage.GeneratePresignedUploadURL w fileName).1.2.2 = some e →
      (ds.RequestUploadURL w fileName).1.2.2 = some e ∧
      ds.RequestUploadURL w fileName = ds.fileStorage.GeneratePresignedUploadURL w fileName) ∧
    (∀ (s : s3FileStorage) (clock : σ → Time) (environ : σ → String → Option String)
        (e0 : GoError),
      ds.fileStorage = s.port clock environ →
      s.presigner.PresignPutObject s.bucketName
        (s3FileStorage.GeneratePresignedUploadURL.key fileName (clock w).Unix
          (os.Getenv (environ w) "AWS_REQUEST_ID")) (5 * 60) = .error e0 →
      ds.RequestUploadURL w fileName
        = (("", "", some (.wrapError ("failed to presign put object: " ++ e0.Error) e0)),
           w)) := by
  refine ⟨fun e he => ⟨he, rfl⟩, fun s clock environ e0 hport hsign => ?_⟩
  have hgen := GeneratePresignedUploadURL_of_error s (clock w) (environ w) fileName e0 hsign
  unfold documentService.RequestUploadURL
  rw [hport]
  unfold s3FileStorage.port
  simp only [hgen]

/-- Witness of the amended C16: the service over a file storage that is out of service,
and over the S3 adapter with a presign client that has no credentials. -/
theorem RequestUploadURL_returns_port_error_witness :
    (memDocumentService.RequestUploadURL [] "invoice.pdf").1.2.2
      = some (.errorString "storage unavailable") ∧
    ((s3DocumentService failingPresignClient).RequestUploadURL Surroundings.sample
        "invoice.pdf").1
      = ("", "", some (.wrapError "failed to presign put object: no credentials"
          (.errorString "no credentials"))) := by
  have h1 := ((RequestUploadURL_returns_port_error memDocumentService [] "invoice.pdf").1
    (.errorString "storage unavailable") rfl).1
  have h2 := (RequestUploadURL_returns_port_error (s3DocumentService failingPresignClient)
    Surroundings.sample "invoice.pdf").2
    { presigner := failingPresignClient, bucketName := "collie-docs" }
    Surroundings.timeNow Surroundings.environ (.errorString "no credentials") rfl rfl
  refine ⟨h1, ?_⟩
  rw [h2]
  rfl

/-! ## The document record: there and back -/

/-- A number below 100 is written with two digits. -/
theorem appendInt_two (n : Nat) (h : n < 100) :
    time.appendInt (n : Int) 2 = [Nat.digitChar (n / 10), Nat.digitChar (n % 10)] := by
  simp [time.appendInt, h]

/-- A number below 10000 is written with four digits. -/
theorem appendInt_four (n : Nat) (h : n < 10000) :
    time.appendInt (n : Int) 4
      = [Nat.digitChar (n / 100 / 10), Nat.digitChar (n / 100 % 10),
         Nat.digitChar (n % 100 / 10), Nat.digitChar (n % 100 % 10)] := by
  simp [time.appendInt, h]

/-- Two digits written for a number within the bounds are read back as the number. -/
theorem parseUint_two (n : Nat) (h : n < 100) (lo hi : Int) (hlo : lo ≤ n)
    (hhi : (n : Int) ≤ hi) :
    time.parseUint [Nat.digitChar (n / 10), Nat.digitChar (n % 10)] lo hi = some (n : Int) := by
  have h1 : n / 10 < 10 := by omega
  have h2 : n % 10 < 10 := by omega
  have hval : readDecimal 0 [Nat.digitChar (n / 10), Nat.digitChar (n % 10)] = n := by
    simp only [readDecimal, List.foldl_cons, List.foldl_nil, digitChar_toNat _ h1,
      digitChar_toNat _ h2]
    omega
  unfold time.parseUint
  rw [if_pos (by simp [digitChar_isDigit _ h1, digitChar_isDigit _ h2])]
  simp only [hval]
  rw [if_neg (by omega)]

/-- Four digits written for a number within the bounds are read back as the number. -/
theorem parseUint_four (n : Nat) (h : n < 10000) (lo hi : Int) (hlo : lo ≤ n)
    (hhi : (n : Int) ≤ hi) :
    time.parseUint [Nat.digitChar (n / 100 / 10), Nat.digitChar (n / 100 % 10),
        Nat.digitChar (n % 100 / 10), Nat.digitChar (n % 100 % 10)] lo hi = some (n : Int) := by
  have h1 : n / 100 / 10 < 10 := by omega
  have h2 : n / 100 % 10 < 10 := by omega
  have h3 : n % 100 / 10 < 10 := by omega
  have h4 : n % 100 % 10 < 10 := by omega
  have hval : readDecimal 0 [Nat.digitChar (n / 100 / 10), Nat.digitChar (n / 100 % 10),
      Nat.digitChar (n % 100 / 10), Nat.digitChar (n % 100 % 10)] = n := by
    simp only [readDecimal, List.foldl_cons, List.foldl_nil, digitChar_toNat _ h1,
      digitChar_toNat _ h2, digitChar_toNat _ h3, digitChar_toNat _ h4]
    omega
  unfold time.parseUint
  rw [if_pos (by simp [digitChar_isDigit _ h1, digitChar_isDigit _ h2,
    digitChar_isDigit _ h3, digitChar_isDigit _ h4])]
  simp only [hval]
  rw [if_neg (by omega)]

/-- The leap years of the Gregorian calendar. -/
theorem isLeap_iff (year : Int) :
    time.isLeap year = true ↔ year % 4 = 0 ∧ (year % 100 ≠ 0 ∨ year % 400 = 0) := by
  simp [time.isLeap]

/-- The days before January 1 of a year, in closed form. -/
theorem daysSinceEpoch_eq (year : Int) :
    time.daysSinceEpoch year
      = 365 * (year - 1) + (year - 1) / 4 - (year - 1) / 100 + (year - 1) / 400 := by
  unfold time.daysSinceEpoch
  simp only
  omega


/-- The arithmetic of `absYear`, on the quotients it takes: the days before the year found
and the day within the year add up to the days given, and the day within the year is
below 365, or is 365 in a leap year. -/
theorem absYear_core (days b c d e f g : Int)
    (hb : 0 ≤ days - 146097 * b) (hb2 : days - 146097 * b < 146097)
    (hc : 36524 * c ≤ days - 146097 * b) (hc2 : days - 146097 * b < 36524 * c + 36524)
    (hd : 4 * d ≤ c) (hd2 : c < 4 * d + 4)
    (he : 1461 * e ≤ days - 146097 * b - 36524 * (c - d))
    (he2 : days - 146097 * b - 36524 * (c - d) < 1461 * e + 1461)
    (hf : 365 * f ≤ days - 146097 * b - 36524 * (c - d) - 1461 * e)
    (hf2 : days - 146097 * b - 36524 * (c - d) - 1461 * e < 365 * f + 365)
    (hg : 4 * g ≤ f) (hg2 : f < 4 * g + 4) :
    365 * (400 * b + 100 * (c - d) + 4 * e + (f - g))
        + (400 * b + 100 * (c - d) + 4 * e + (f - g)) / 4
        - (400 * b + 100 * (c - d) + 4 * e + (f - g)) / 100
        + (400 * b + 100 * (c - d) + 4 * e + (f - g)) / 400
        + (days - 146097 * b - 36524 * (c - d) - 1461 * e - 365 * (f - g)) = days ∧
    0 ≤ days - 146097 * b - 36524 * (c - d) - 1461 * e - 365 * (f - g) ∧
    (days - 146097 * b - 36524 * (c - d) - 1461 * e - 365 * (f - g) < 365 ∨
      (days - 146097 * b - 36524 * (c - d) - 1461 * e - 365 * (f - g) = 365 ∧
        (400 * b + 100 * (c - d) + 4 * e + (f - g) + 1) % 4 = 0 ∧
        ((400 * b + 100 * (c - d) + 4 * e + (f - g) + 1) % 100 ≠ 0 ∨
          (400 * b + 100 * (c - d) + 4 * e + (f - g) + 1) % 400 = 0))) := by
  have hc0 : c = 0 ∨ c = 1 ∨ c = 2 ∨ c = 3 ∨ c = 4 := by omega
  have hf0 : f = 0 ∨ f = 1 ∨ f = 2 ∨ f = 3 ∨ f = 4 := by omega
  rcases hc0 with rfl | rfl | rfl | rfl | rfl <;>
    rcases hf0 with rfl | rfl | rfl | rfl | rfl <;> omega

/-- The year and the day within the year that `absYear` finds. -/
theorem absYear_spec (days : Int) :
    time.daysSinceEpoch (time.absYear days).1 + (time.absYear days).2 = days ∧
    0 ≤ (time.absYear days).2 ∧
    ((time.absYear days).2 < 365 ∨
      ((time.absYear days).2 = 365 ∧ time.isLeap (time.absYear days).1 = true)) := by
  rw [isLeap_iff, daysSinceEpoch_eq]
  unfold time.absYear
  simp only
  generalize hB : days / 146097 = b
  generalize hC : (days - 146097 * b) / 36524 = c
  generalize hD : c / 4 = d
  generalize hE : (days - 146097 * b - 36524 * (c - d)) / 1461 = e
  generalize hF : (days - 146097 * b - 36524 * (c - d) - 1461 * e) / 365 = f
  generalize hG : f / 4 = g
  have h := absYear_core days b c d e f g (by omega) (by omega) (by omega) (by omega)
    (by omega) (by omega) (by omega) (by omega) (by omega) (by omega) (by omega) (by omega)
  have hy : 400 * b + 100 * (c - d) + 4 * e + (f - g) + 1 - 1
      = 400 * b + 100 * (c - d) + 4 * e + (f - g) := by omega
  rw [hy]
  exact h
/-- The month and day that `absDate` finds from the day of a non-leap year, or of a leap
year with the leap day taken out. -/
theorem absMonthDay_estimate (day m d : Int) (h0 : 0 ≤ day) (h1 : day ≤ 364)
    (hm : (m, d) = if day ≥ time.daysBefore (day / 31 + 1)
      then (day / 31 + 2, day - time.daysBefore (day / 31 + 1) + 1)
      else (day / 31 + 1, day - time.daysBefore (day / 31) + 1)) :
    1 ≤ m ∧ m ≤ 12 ∧ 1 ≤ d ∧ d ≤ 31 ∧ d ≤ time.daysBefore m - time.daysBefore (m - 1) ∧
      (m = 2 → d ≤ 28) ∧ time.daysBefore (m - 1) + (d - 1) = day ∧ (m ≥ 3 ↔ day ≥ 59) := by
  generalize hq : day / 31 = q at hm
  have hq0 : q = 0 ∨ q = 1 ∨ q = 2 ∨ q = 3 ∨ q = 4 ∨ q = 5 ∨ q = 6 ∨ q = 7 ∨ q = 8 ∨ q = 9
      ∨ q = 10 ∨ q = 11 := by omega
  rcases hq0 with rfl | rfl | rfl | rfl | rfl | rfl | rfl | rfl | rfl | rfl | rfl | rfl <;>
    norm_num [time.daysBefore] at hm <;>
    split_ifs at hm with hc <;>
    obtain ⟨rfl, rfl⟩ := Prod.mk.inj hm <;>
    norm_num [time.daysBefore] <;> omega

/-- The month and the day of the month that `absMonthDay` finds are a valid date of the
year, and lead back to the day within the year. -/
theorem absMonthDay_spec (year yday : Int) (h0 : 0 ≤ yday)
    (h1 : yday < 365 ∨ (yday = 365 ∧ time.isLeap year = true)) :
    1 ≤ (time.absMonthDay year yday).1 ∧ (time.absMonthDay year yday).1 ≤ 12 ∧
    1 ≤ (time.absMonthDay year yday).2 ∧ (time.absMonthDay year yday).2 ≤ 31 ∧
    (time.absMonthDay year yday).2 ≤ time.daysIn (time.absMonthDay year yday).1 year ∧
    time.daysBefore ((time.absMonthDay year yday).1 - 1)
      + (if time.isLeap year = true ∧ (time.absMonthDay year yday).1 ≥ 3 then 1 else 0)
      + ((time.absMonthDay year yday).2 - 1) = yday := by
  by_cases hl : time.isLeap year = true
  · by_cases h59 : yday = 31 + 29 - 1
    · have hres : time.absMonthDay year yday = (2, 29) := by
        unfold time.absMonthDay
        simp only
        rw [if_pos ⟨hl, h59⟩]
      rw [hres]
      norm_num [time.daysIn, time.daysBefore, hl, h59]
    · generalize hday : (if yday > 31 + 29 - 1 then yday - 1 else yday) = day
      have hd0 : 0 ≤ day ∧ day ≤ 364 ∧ (day ≥ 59 ↔ yday > 59) ∧
          (day + (if day ≥ 59 then 1 else 0) = yday) := by
        rw [← hday]; split_ifs <;> omega
      have hres : time.absMonthDay year yday = if day ≥ time.daysBefore (day / 31 + 1)
          then (day / 31 + 2, day - time.daysBefore (day / 31 + 1) + 1)
          else (day / 31 + 1, day - time.daysBefore (day / 31) + 1) := by
        unfold time.absMonthDay
        simp only
        rw [if_neg (fun h => h59 h.2)]
        simp only [hl, true_and, hday]
      obtain ⟨a1, a2, a3, a31, a4, a5, a6, a7⟩ := absMonthDay_estimate day
        (time.absMonthDay year yday).1 (time.absMonthDay year yday).2 hd0.1 hd0.2.1 hres
      refine ⟨a1, a2, a3, a31, ?_, ?_⟩
      · unfold time.daysIn
        split_ifs with hfeb
        · have := a5 hfeb.1
          omega
        · exact a4
      · simp only [hl, true_and]
        split_ifs at hd0 ⊢ <;> omega
  · have hy : yday < 365 := by
      rcases h1 with h | h
      · exact h
      · exact absurd h.2 hl
    have hl2 : time.isLeap year = false := by
      cases hb : time.isLeap year
      · rfl
      · exact absurd hb hl
    have hres : time.absMonthDay year yday = if yday ≥ time.daysBefore (yday / 31 + 1)
        then (yday / 31 + 2, yday - time.daysBefore (yday / 31 + 1) + 1)
        else (yday / 31 + 1, yday - time.daysBefore (yday / 31) + 1) := by
      unfold time.absMonthDay
      simp only [hl2, Bool.false_eq_true, false_and, if_false]
    obtain ⟨a1, a2, a3, a31, a4, a5, a6, a7⟩ := absMonthDay_estimate yday
      (time.absMonthDay year yday).1 (time.absMonthDay year yday).2 h0 (by omega) hres
    refine ⟨a1, a2, a3, a31, ?_, ?_⟩
    · unfold time.daysIn
      simp only [hl2, Bool.false_eq_true, and_false, if_false]
      exact a4
    · simp only [hl2, Bool.false_eq_true, false_and, if_false]
      omega

/-- The year of a day between January 1 of year 0 and December 31 of year 9999. -/
theorem year_bounds (year yday days : Int)
    (hsum : 365 * (year - 1) + (year - 1) / 4 - (year - 1) / 100 + (year - 1) / 400 + yday = days)
    (h0 : 0 ≤ yday)
    (h1 : yday < 365 ∨ (yday = 365 ∧ year % 4 = 0 ∧ (year % 100 ≠ 0 ∨ year % 400 = 0)))
    (hlo : -366 ≤ days) (hhi : days < 3652059) : 0 ≤ year ∧ year ≤ 9999 := by
  have hcases : year ≤ -2 ∨ year = -1 ∨ (0 ≤ year ∧ year ≤ 9999) ∨ year = 10000
      ∨ 10001 ≤ year := by omega
  rcases hcases with h | h | h | h | h
  · exfalso; omega
  · exfalso; subst h; omega
  · exact h
  · exfalso; subst h; omega
  · exfalso; omega

/-- On a text of twenty characters with the separators of the layout and the zone `Z`,
`parseRFC3339` reads the six fields in turn. -/
theorem parse_layout (y1 y2 y3 y4 m1 m2 d1 d2 h1 h2 i1 i2 s1 s2 : Char) :
    time.parseRFC3339 [y1, y2, y3, y4, '-', m1, m2, '-', d1, d2, 'T', h1, h2, ':', i1, i2, ':',
        s1, s2, 'Z']
      = (time.parseUint [y1, y2, y3, y4] 0 9999).bind fun year =>
        (time.parseUint [m1, m2] 1 12).bind fun month =>
        (time.parseUint [d1, d2] 1 (time.daysIn month year)).bind fun day =>
        (time.parseUint [h1, h2] 0 23).bind fun hour =>
        (time.parseUint [i1, i2] 0 59).bind fun minute =>
        (time.parseUint [s1, s2] 0 59).bind fun second =>
        some (time.Date year month day hour minute second 0) := by
  rfl

/-- On a text of twenty-five characters with the separators of the layout and an offset
east of UTC, `parseRFC3339` reads the six fields and the offset in turn. -/
theorem parse_layout_plus (y1 y2 y3 y4 m1 m2 d1 d2 h1 h2 i1 i2 s1 s2 z1 z2 z3 z4 : Char) :
    time.parseRFC3339 [y1, y2, y3, y4, '-', m1, m2, '-', d1, d2, 'T', h1, h2, ':', i1, i2, ':',
        s1, s2, '+', z1, z2, ':', z3, z4]
      = (time.parseUint [y1, y2, y3, y4] 0 9999).bind fun year =>
        (time.parseUint [m1, m2] 1 12).bind fun month =>
        (time.parseUint [d1, d2] 1 (time.daysIn month year)).bind fun day =>
        (time.parseUint [h1, h2] 0 23).bind fun hour =>
        (time.parseUint [i1, i2] 0 59).bind fun minute =>
        (time.parseUint [s1, s2] 0 59).bind fun second =>
        (time.parseUint [z1, z2] 0 23).bind fun hr =>
        (time.parseUint [z3, z4] 0 59).bind fun mm =>
        some { sec := (time.Date year month day hour minute second 0).sec - (hr * 60 + mm) * 60,
               nsec := (time.Date year month day hour minute second 0).nsec,
               offset := (hr * 60 + mm) * 60 } := by
  rfl

/-- On a text of twenty-five characters with the separators of the layout and an offset
west of UTC, `parseRFC3339` reads the six fields and the offset in turn. -/
theorem parse_layout_minus (y1 y2 y3 y4 m1 m2 d1 d2 h1 h2 i1 i2 s1 s2 z1 z2 z3 z4 : Char) :
    time.parseRFC3339 [y1, y2, y3, y4, '-', m1, m2, '-', d1, d2, 'T', h1, h2, ':', i1, i2, ':',
        s1, s2, '-', z1, z2, ':', z3, z4]
      = (time.parseUint [y1, y2, y3, y4] 0 9999).bind fun year =>
        (time.parseUint [m1, m2] 1 12).bind fun month =>
        (time.parseUint [d1, d2] 1 (time.daysIn month year)).bind fun day =>
        (time.parseUint [h1, h2] 0 23).bind fun hour =>
        (time.parseUint [i1, i2] 0 59).bind fun minute =>
        (time.parseUint [s1, s2] 0 59).bind fun second =>
        (time.parseUint [z1, z2] 0 23).bind fun hr =>
        (time.parseUint [z3, z4] 0 59).bind fun mm =>
        some { sec := (time.Date year month day hour minute second 0).sec - -((hr * 60 + mm) * 60),
               nsec := (time.Date year month day hour minute second 0).nsec,
               offset := -((hr * 60 + mm) * 60) } := by
  rfl

/-- The text written for a valid date and time of day in years 0 to 9999, with the zone
`Z`, is read back as that date and time in UTC. -/
theorem parseRFC3339_fields (Y M D h m s : Nat) (hY : Y ≤ 9999) (hM1 : 1 ≤ M) (hM : M ≤ 12)
    (hD1 : 1 ≤ D) (hD : (D : Int) ≤ time.daysIn M Y) (hD2 : D ≤ 31) (hh : h ≤ 23)
    (hm : m ≤ 59) (hs : s ≤ 59) :
    time.parseRFC3339 (dateTimeText Y M D h m s ++ ['Z'])
      = some (time.Date Y M D h m s 0) := by
  unfold dateTimeText
  rw [appendInt_four Y (by omega), appendInt_two M (by omega), appendInt_two D (by omega),
    appendInt_two h (by omega), appendInt_two m (by omega), appendInt_two s (by omega)]
  simp only [List.cons_append, List.nil_append]
  rw [parse_layout, parseUint_four Y (by omega) 0 9999 (by omega) (by omega),
    Option.some_bind, parseUint_two M (by omega) 1 12 (by omega) (by omega),
    Option.some_bind, parseUint_two D (by omega) 1 _ (by omega) hD,
    Option.some_bind, parseUint_two h (by omega) 0 23 (by omega) (by omega),
    Option.some_bind, parseUint_two m (by omega) 0 59 (by omega) (by omega),
    Option.some_bind, parseUint_two s (by omega) 0 59 (by omega) (by omega),
    Option.some_bind]

/-- The text written for a valid date and time of day in years 0 to 9999, with an offset
east of UTC of `zh` hours and `zm` minutes, is read back as the instant that lies that
offset before the date and time in UTC, at that offset. -/
theorem parseRFC3339_fields_plus (Y M D h m s zh zm : Nat) (hY : Y ≤ 9999) (hM1 : 1 ≤ M)
    (hM : M ≤ 12) (hD1 : 1 ≤ D) (hD : (D : Int) ≤ time.daysIn M Y) (hD2 : D ≤ 31)
    (hh : h ≤ 23) (hm : m ≤ 59) (hs : s ≤ 59) (hzh : zh ≤ 23) (hzm : zm ≤ 59) :
    time.parseRFC3339 (dateTimeText Y M D h m s
        ++ '+' :: (time.appendInt zh 2 ++ ':' :: time.appendInt zm 2))
      = some { sec := (time.Date Y M D h m s 0).sec - ((zh : Int) * 60 + zm) * 60,
               nsec := (time.Date Y M D h m s 0).nsec,
               offset := ((zh : Int) * 60 + zm) * 60 } := by
  unfold dateTimeText
  rw [appendInt_four Y (by omega), appendInt_two M (by omega), appendInt_two D (by omega),
    appendInt_two h (by omega), appendInt_two m (by omega), appendInt_two s (by omega),
    appendInt_two zh (by omega), appendInt_two zm (by omega)]
  simp only [List.cons_append, List.nil_append]
  rw [parse_layout_plus, parseUint_four Y (by omega) 0 9999 (by omega) (by omega),
    Option.some_bind, parseUint_two M (by omega) 1 12 (by omega) (by omega),
    Option.some_bind, parseUint_two D (by omega) 1 _ (by omega) hD,
    Option.some_bind, parseUint_two h (by omega) 0 23 (by omega) (by omega),
    Option.some_bind, parseUint_two m (by omega) 0 59 (by omega) (by omega),
    Option.some_bind, parseUint_two s (by omega) 0 59 (by omega) (by omega),
    Option.some_bind, parseUint_two zh (by omega) 0 23 (by omega) (by omega),
    Option.some_bind, parseUint_two zm (by omega) 0 59 (by omega) (by omega),
    Option.some_bind]

/-- The text written for a valid date and time of day in years 0 to 9999, with an offset
west of UTC of `zh` hours and `zm` minutes, is read back as the instant that lies that
offset after the date and time in UTC, at that offset. -/
theorem parseRFC3339_fields_minus (Y M D h m s zh zm : Nat) (hY : Y ≤ 9999) (hM1 : 1 ≤ M)
    (hM : M ≤ 12) (hD1 : 1 ≤ D) (hD : (D : Int) ≤ time.daysIn M Y) (hD2 : D ≤ 31)
    (hh : h ≤ 23) (hm : m ≤ 59) (hs : s ≤ 59) (hzh : zh ≤ 23) (hzm : zm ≤ 59) :
    time.parseRFC3339 (dateTimeText Y M D h m s
        ++ '-' :: (time.appendInt zh 2 ++ ':' :: time.appendInt zm 2))
      = some { sec := (time.Date Y M D h m s 0).sec - -(((zh : Int) * 60 + zm) * 60),
               nsec := (time.Date Y M D h m s 0).nsec,
               offset := -(((zh : Int) * 60 + zm) * 60) } := by
  unfold dateTimeText
  rw [appendInt_four Y (by omega), appendInt_two M (by omega), appendInt_two D (by omega),
    appendInt_two h (by omega), appendInt_two m (by omega), appendInt_two s (by omega),
    appendInt_two zh (by omega), appendInt_two zm (by omega)]
  simp only [List.cons_append, List.nil_append]
  rw [parse_layout_minus, parseUint_four Y (by omega) 0 9999 (by omega) (by omega),
    Option.some_bind, parseUint_two M (by omega) 1 12 (by omega) (by omega),
    Option.some_bind, parseUint_two D (by omega) 1 _ (by omega) hD,
    Option.some_bind, parseUint_two h (by omega) 0 23 (by omega) (by omega),
    Option.some_bind, parseUint_two m (by omega) 0 59 (by omega) (by omega),
    Option.some_bind, parseUint_two s (by omega) 0 59 (by omega) (by omega),
    Option.some_bind, parseUint_two zh (by omega) 0 23 (by omega) (by omega),
    Option.some_bind, parseUint_two zm (by omega) 0 59 (by omega) (by omega),
    Option.some_bind]

/-- The date and the time of day written for a time whose wall clock lies in years 0 to
9999 are those of a valid date and time, which `time.Date` turns back into the seconds
of the wall clock. -/
theorem appendDateTime_fields (t : Time) (hw0 : -31622400 ≤ t.sec + t.offset)
    (hw1 : t.sec + t.offset < 315537897600) :
    ∃ Y M D h m s : Nat, Y ≤ 9999 ∧ 1 ≤ M ∧ M ≤ 12 ∧ 1 ≤ D ∧
      (D : Int) ≤ time.daysIn M Y ∧ D ≤ 31 ∧ h ≤ 23 ∧ m ≤ 59 ∧ s ≤ 59 ∧
      t.appendDateTime = dateTimeText Y M D h m s ∧
      time.Date Y M D h m s 0 = { sec := t.sec + t.offset, nsec := 0, offset := 0 } := by
  have habs : t.abs = t.sec + t.offset + 9223371966579724800 := by
    unfold Time.abs
    omega
  unfold Time.appendDateTime time.absDate dateTimeText
  simp only
  rw [habs]
  generalize t.sec + t.offset = W at *
  have hdays : (W + 9223371966579724800) / 86400 - 106751990353932 = W / 86400 := by omega
  have hsecs : (W + 9223371966579724800) % 86400 = W % 86400 := by omega
  rw [hdays, hsecs]
  obtain ⟨hy1, hy2, hy3⟩ := absYear_spec (W / 86400)
  obtain ⟨hm1, hm2, hd1, hd31, hd2, hsum⟩ := absMonthDay_spec (time.absYear (W / 86400)).1
    (time.absYear (W / 86400)).2 hy2 hy3
  have hyear : 0 ≤ (time.absYear (W / 86400)).1 ∧ (time.absYear (W / 86400)).1 ≤ 9999 := by
    rw [daysSinceEpoch_eq] at hy1
    rw [isLeap_iff] at hy3
    exact year_bounds _ _ _ hy1 hy2 hy3 (by omega) (by omega)
  have hdate : time.Date (time.absYear (W / 86400)).1
      (time.absMonthDay (time.absYear (W / 86400)).1 (time.absYear (W / 86400)).2).1
      (time.absMonthDay (time.absYear (W / 86400)).1 (time.absYear (W / 86400)).2).2
      (W % 86400 / 3600) (W % 86400 % 3600 / 60) (W % 86400 % 60) 0
      = { sec := W, nsec := 0, offset := 0 } := by
    unfold time.Date
    simp only [Time.mk.injEq, and_true]
    split_ifs at hsum ⊢ <;> omega
  generalize (time.absYear (W / 86400)).2 = yday at *
  generalize (time.absYear (W / 86400)).1 = year at *
  generalize hmd : time.absMonthDay year yday = md at *
  obtain ⟨Y, rfl⟩ := Int.eq_ofNat_of_zero_le hyear.1
  obtain ⟨M, hM⟩ := Int.eq_ofNat_of_zero_le (le_trans (by decide) hm1)
  obtain ⟨D, hD⟩ := Int.eq_ofNat_of_zero_le (le_trans (by decide) hd1)
  obtain ⟨h, hh⟩ := Int.eq_ofNat_of_zero_le (show 0 ≤ W % 86400 / 3600 by omega)
  obtain ⟨m, hm⟩ := Int.eq_ofNat_of_zero_le (show 0 ≤ W % 86400 % 3600 / 60 by omega)
  obtain ⟨s, hs⟩ := Int.eq_ofNat_of_zero_le (show 0 ≤ W % 86400 % 60 by omega)
  rw [hM, hD, hh, hm, hs] at hdate ⊢
  rw [hM, hD] at hd2
  exact ⟨Y, M, D, h, m, s, by omega, by omega, by omega, by omega, hd2, by omega, by omega,
    by omega, by omega, rfl, hdate⟩

/-- The zone written for an offset east of UTC of whole minutes, below 24 hours. -/
theorem appendZone_plus (t : Time) (h0 : 0 < t.offset) (h1 : t.offset < 86400)
    (h60 : t.offset % 60 = 0) :
    ∃ zh zm : Nat, zh ≤ 23 ∧ zm ≤ 59 ∧ ((zh : Int) * 60 + zm) * 60 = t.offset ∧
      t.appendZone = '+' :: (time.appendInt zh 2 ++ ':' :: time.appendInt zm 2) := by
  have htdiv : Int.tdiv t.offset 60 = t.offset / 60 :=
    Int.tdiv_eq_ediv (le_of_lt h0) (by decide)
  obtain ⟨zh, hzh⟩ := Int.eq_ofNat_of_zero_le (show 0 ≤ t.offset / 60 / 60 by omega)
  obtain ⟨zm, hzm⟩ := Int.eq_ofNat_of_zero_le (show 0 ≤ t.offset / 60 % 60 by omega)
  refine ⟨zh, zm, by omega, by omega, by omega, ?_⟩
  unfold Time.appendZone
  rw [if_neg (by omega)]
  simp only [htdiv]
  rw [if_neg (by omega), hzh, hzm]

/-- The zone written for an offset west of UTC of whole minutes, below 24 hours. -/
theorem appendZone_minus (t : Time) (h0 : t.offset < 0) (h1 : -86400 < t.offset)
    (h60 : t.offset % 60 = 0) :
    ∃ zh zm : Nat, zh ≤ 23 ∧ zm ≤ 59 ∧ -(((zh : Int) * 60 + zm) * 60) = t.offset ∧
      t.appendZone = '-' :: (time.appendInt zh 2 ++ ':' :: time.appendInt zm 2) := by
  have htdiv : Int.tdiv t.offset 60 = -(-t.offset / 60) := by
    have h := Int.neg_tdiv (-t.offset) 60
    rw [neg_neg] at h
    rw [h, Int.tdiv_eq_ediv (by omega) (by decide)]
  obtain ⟨zh, hzh⟩ := Int.eq_ofNat_of_zero_le (show 0 ≤ -t.offset / 60 / 60 by omega)
  obtain ⟨zm, hzm⟩ := Int.eq_ofNat_of_zero_le (show 0 ≤ -t.offset / 60 % 60 by omega)
  refine ⟨zh, zm, by omega, by omega, by omega, ?_⟩
  unfold Time.appendZone
  rw [if_neg (by omega)]
  simp only [htdiv, neg_neg]
  rw [if_pos (by omega), hzh, hzm]

/-- Reading back the RFC 3339 text of a time whose wall clock lies in years 0 to 9999,
in a location whose offset is a whole number of minutes below 24 hours, gives the
instant cut to the whole second, at the same offset. -/
theorem parseRFC3339_Format (t : Time) (hw0 : -31622400 ≤ t.sec + t.offset)
    (hw1 : t.sec + t.offset < 315537897600) (h60 : t.offset % 60 = 0)
    (hlo : -86400 < t.offset) (hhi : t.offset < 86400) :
    time.parseRFC3339 (t.Format_RFC3339).data
      = some { sec := t.sec, nsec := 0, offset := t.offset } := by
  obtain ⟨Y, M, D, h, m, s, hY, hM1, hM, hD1, hD, hD2, hh, hm, hs, htext, hdate⟩ :=
    appendDateTime_fields t hw0 hw1
  unfold Time.Format_RFC3339
  simp only
  rw [htext]
  rcases lt_trichotomy t.offset 0 with hneg | hzero | hpos
  · obtain ⟨zh, zm, hzh, hzm, hoff, hzone⟩ := appendZone_minus t hneg hlo h60
    rw [hzone, parseRFC3339_fields_minus Y M D h m s zh zm hY hM1 hM hD1 hD hD2 hh hm hs
      hzh hzm, hdate, hoff]
    simp only [Option.some.injEq, Time.mk.injEq, and_true]
    omega
  · have hzone : t.appendZone = ['Z'] := by
      unfold Time.appendZone
      rw [if_pos hzero]
    rw [hzone, parseRFC3339_fields Y M D h m s hY hM1 hM hD1 hD hD2 hh hm hs, hdate, hzero]
    simp only [add_zero]
  · obtain ⟨zh, zm, hzh, hzm, hoff, hzone⟩ := appendZone_plus t hpos hhi h60
    rw [hzone, parseRFC3339_fields_plus Y M D h m s zh zm hY hM1 hM hD1 hD hD2 hh hm hs
      hzh hzm, hdate, hoff]
    simp only [Option.some.injEq, Time.mk.injEq, and_true]
    omega

/-- C15, as stated, fails, twice over. The stored contract without a Recipient, whose
UploadDate in UTC has half a second, comes back with the UploadDate cut to the whole
second; the stored contract at a whole second, whose Recipient is `legal`, comes back
with an empty Recipient. Neither comes back equal to the document converted, whatever
the general layout parser does. -/
theorem document_round_trip_loses_fraction_and_Recipient :
    toDocumentItem { Document.contract with Recipient := "" }
      = (some { ID := "d-1", FileName := "a.pdf", S3Key := "uploads/a.pdf_1704067200_",
                UploadDate := "2024-01-01T00:00:00Z", Status := "PENDING_UPLOAD",
                OwnerID := "e-7", RequiresSignature := true, DocumentType := "contract",
                GroupName := "hr" }, none) ∧
    (∀ parse : String → Except GoError Time,
      toDomainDocument parse
          { ID := "d-1", FileName := "a.pdf", S3Key := "uploads/a.pdf_1704067200_",
            UploadDate := "2024-01-01T00:00:00Z", Status := "PENDING_UPLOAD",
            OwnerID := "e-7", RequiresSignature := true, DocumentType := "contract",
            GroupName := "hr" }
        = (some { Document.contract with UploadDate := ⟨63839664000, 0, 0⟩,
                                         Recipient := "" }, none)) ∧
    ({ Document.contract with UploadDate := ⟨63839664000, 0, 0⟩, Recipient := "" } : Document)
      ≠ { Document.contract with Recipient := "" } ∧
    toDocumentItem { Document.contract with UploadDate := ⟨63839664000, 0, 0⟩ }
      = (some { ID := "d-1", FileName := "a.pdf", S3Key := "uploads/a.pdf_1704067200_",
                UploadDate := "2024-01-01T00:00:00Z", Status := "PENDING_UPLOAD",
                OwnerID := "e-7", RequiresSignature := true, DocumentType := "contract",
                GroupName := "hr" }, none) ∧
    ({ Document.contract with UploadDate := ⟨63839664000, 0, 0⟩, Recipient := "" } : Document)
      ≠ { Document.contract with UploadDate := ⟨63839664000, 0, 0⟩ } := by
  refine ⟨by decide, fun parse => ?_, by decide, by decide, by decide⟩
  have hfast : time.parseRFC3339 "2024-01-01T00:00:00Z".data
      = some ⟨63839664000, 0, 0⟩ := by decide
  unfold toDomainDocument time.Parse_RFC3339
  simp only [hfast]
  rfl

/-- C15, amended: for every document `doc` whose UploadDate, on the wall clock of its
own location, lies in the years 0 to 9999, in a location whose offset from UTC is a
whole number of minutes, less than 24 hours either way, converting `doc` to its
persisted record with `toDocumentItem` and back with `toDomainDocument` succeeds,
whatever the general layout parser does, and yields a document equal to `doc` in ID,
FileName, S3Key, Status, OwnerID, RequiresSignature, DocumentType and GroupName; its
UploadDate is the instant of the UploadDate of `doc` cut to the whole second, at the
same offset, and its Recipient is empty. The document that comes back is `doc` itself
(a location being its offset) when the UploadDate of `doc` is a whole second and its
Recipient is empty. -/
theorem document_round_trip (parse : String → Except GoError Time) (doc : Document)
    (hw0 : -31622400 ≤ doc.UploadDate.sec + doc.UploadDate.offset)
    (hw1 : doc.UploadDate.sec + doc.UploadDate.offset < 315537897600)
    (h60 : doc.UploadDate.offset % 60 = 0)
    (hlo : -86400 < doc.UploadDate.offset) (hhi : doc.UploadDate.offset < 86400) :
    ∃ item back, toDocumentItem doc = (some item, none) ∧
      toDomainDocument parse item = (some back, none) ∧
      back.ID = doc.ID ∧ back.FileName = doc.FileName ∧ back.S3Key = doc.S3Key ∧
      back.Status = doc.Status ∧ back.OwnerID = doc.OwnerID ∧
      back.RequiresSignature = doc.RequiresSignature ∧
      back.DocumentType = doc.DocumentType ∧ back.GroupName = doc.GroupName ∧
      back.UploadDate
        = { sec := doc.UploadDate.sec, nsec := 0, offset := doc.UploadDate.offset } ∧
      back.Recipient = "" ∧
      (doc.UploadDate.nsec = 0 → doc.Recipient = "" → back = doc) := by
  have hparse : time.Parse_RFC3339 parse doc.UploadDate.Format_RFC3339
      = .ok { sec := doc.UploadDate.sec, nsec := 0, offset := doc.UploadDate.offset } := by
    unfold time.Parse_RFC3339
    rw [parseRFC3339_Format doc.UploadDate hw0 hw1 h60 hlo hhi]
  refine ⟨_, { doc with UploadDate := { sec := doc.UploadDate.sec, nsec := 0,
                                         offset := doc.UploadDate.offset },
                         Recipient := "" }, rfl, ?_, rfl, rfl, rfl, rfl, rfl, rfl, rfl, rfl,
    rfl, rfl, ?_⟩
  · unfold toDomainDocument
    simp only [hparse]
  · intro hn hr
    cases doc with
    | mk ID FileName S3Key UploadDate Status OwnerID RequiresSignature DocumentType
        GroupName Recipient =>
      cases UploadDate with
      | mk sec nsec offset =>
        simp only at hn hr
        subst hn hr
        rfl

/-- Witness of the amended C15: the stored contract, uploaded half a second past the
second 63839664000 in a location two hours east of UTC, is stored as
`2024-01-01T02:00:00+02:00` and comes back at the whole second, two hours east of UTC,
without its Recipient. -/
theorem document_round_trip_witness :
    ∃ item back,
      toDocumentItem { Document.contract with UploadDate := ⟨63839664000, 500000000, 7200⟩ }
        = (some item, none) ∧
      item.UploadDate = "2024-01-01T02:00:00+02:00" ∧
      toDomainDocument rejectingLayoutParser item = (some back, none) ∧
      back = { Document.contract with UploadDate := ⟨63839664000, 0, 7200⟩,
                                      Recipient := "" } := by
  obtain ⟨item, back, h1, h2, a1, a2, a3, a4, a5, a6, a7, a8, a9, a10, -⟩ :=
    document_round_trip rejectingLayoutParser
      { Document.contract with UploadDate := ⟨63839664000, 500000000, 7200⟩ }
      (by decide) (by decide) (by decide) (by decide) (by decide)
  have hitem : item.UploadDate = "2024-01-01T02:00:00+02:00" := by
    have h3 : toDocumentItem
        { Document.contract with UploadDate := ⟨63839664000, 500000000, 7200⟩ }
        = (some { ID := "d-1", FileName := "a.pdf", S3Key := "uploads/a.pdf_1704067200_",
                  UploadDate := "2024-01-01T02:00:00+02:00", Status := "PENDING_UPLOAD",
                  OwnerID := "e-7", RequiresSignature := true, DocumentType := "contract",
                  GroupName := "hr" }, none) := by decide
    rw [h3] at h1
    injection h1 with h1 _
    injection h1 with h1
    rw [← h1]
  refine ⟨item, back, h1, hitem, h2, ?_⟩
  cases back
  simp only at a1 a2 a3 a4 a5 a6 a7 a8 a9 a10
  subst a1 a2 a3 a4 a5 a6 a7 a8 a9 a10
  rfl

end Collie
